import Mathlib

/-!
Verification of the Hydrogen scripting-language runtime (parser, bytecode
interpreter, JIT trace recorder and register allocator) against its
natural-language specification.

The C sources are shallowly embedded: machine integers become `Nat` with
explicit wrap-around (`% 2^32`, `% 2^64`) where the C type would overflow,
IEEE-754 doubles are represented by their 64-bit bit patterns, fallible or
`assert`-carrying code returns `Except`, and the parser's mutable state is
threaded through a state monad.  Recursion that the C expresses as loops or
unbounded recursion carries an explicit fuel argument.
-/

namespace Hydrogen

/-! ### IEEE-754 binary64 bit patterns

A C `double` is modelled by its 64-bit pattern (a `Nat < 2^64`).  The
comparison operators below implement the IEEE-754 (and hence C) comparison
semantics on bit patterns: any comparison involving a NaN is false, and
`-0.0 == +0.0`.  For every non-NaN pattern, `dblKey` is a signed-magnitude
key that is strictly monotone in the represented real value, so comparing
keys is exactly comparing the represented values. -/

/-- Exponent field (bits 52..62) of a binary64 bit pattern. -/
def dblExp (b : Nat) : Nat := b / 2 ^ 52 % 2 ^ 11

/-- Fraction field (bits 0..51) of a binary64 bit pattern. -/
def dblFrac (b : Nat) : Nat := b % 2 ^ 52

/-- Sign bit of a binary64 bit pattern. -/
def dblSign (b : Nat) : Nat := b / 2 ^ 63 % 2

/-- A binary64 bit pattern is a NaN iff the exponent field is all ones and
the fraction is non-zero. -/
def dblIsNaN (b : Nat) : Bool := dblExp b == 2047 && dblFrac b != 0

/-- Signed-magnitude ordering key of a binary64 bit pattern: for non-NaN
patterns, key order coincides with the IEEE value order (both zeros map
to key 0). -/
def dblKey (b : Nat) : Int :=
  if dblSign b = 1 then -((b % 2 ^ 63 : Nat) : Int) else ((b % 2 ^ 63 : Nat) : Int)

/-- C `==` on doubles, on bit patterns. -/
def dblEq (a b : Nat) : Bool := !dblIsNaN a && !dblIsNaN b && dblKey a == dblKey b

/-- C `!=` on doubles, on bit patterns (true when either side is NaN). -/
def dblNe (a b : Nat) : Bool := !(dblEq a b)

/-- C `<` on doubles, on bit patterns. -/
def dblLt (a b : Nat) : Bool := !dblIsNaN a && !dblIsNaN b && dblKey a < dblKey b

/-- C `<=` on doubles, on bit patterns. -/
def dblLe (a b : Nat) : Bool := !dblIsNaN a && !dblIsNaN b && dblKey a ≤ dblKey b

/-- C `>` on doubles, on bit patterns. -/
def dblGt (a b : Nat) : Bool := dblLt b a

/-- C `>=` on doubles, on bit patterns. -/
def dblGe (a b : Nat) : Bool := dblLe b a

/-- IEEE negation of a binary64 bit pattern: flip the sign bit (the effect of
C unary `-` on a double). -/
def dblNeg (b : Nat) : Nat := b ^^^ 2 ^ 63

/-- Fuelled floor of the base-2 logarithm (agrees with `Nat.log2` whenever
`n ≤ fuel`; structural, so the kernel can evaluate it). -/
def log2floor : Nat → Nat → Nat
  | 0, _ => 0
  | fuel + 1, n => if 2 ≤ n then log2floor fuel (n / 2) + 1 else 0

/-- Bit pattern of the binary64 value of a natural number `n < 2^53` (the
range in which the conversion is exact).  Models the C conversion of the
decimal integer literals appearing in this development to `double`. -/
def natToDouble (n : Nat) : Nat :=
  if n = 0 then 0
  else (1023 + log2floor n n) * 2 ^ 52 + (n * 2 ^ (52 - log2floor n n) - 2 ^ 52)

/-! ### Bytecode instruction words (src/bytecode.h and src/vm/bytecode.h)

Both bytecode headers define the same 32-bit instruction layout: byte 0 is
the opcode, bytes 1..3 the arguments.  The constructors and accessors below
are shared by both embeddings; a word is a `Nat < 2^32`. -/

/-- `bc_new3` / `ins_new3`: three 8-bit arguments (the `uint8_t` parameter
types of the C constructors appear as `% 2^8` truncations). -/
def ins_new3 (op a1 a2 a3 : Nat) : Nat :=
  op % 2 ^ 8 ||| (a1 % 2 ^ 8) <<< 8 ||| (a2 % 2 ^ 8) <<< 16 ||| (a3 % 2 ^ 8) <<< 24

/-- `bc_new2` / `ins_new2`: one 8-bit argument and one combined 16-bit
argument. -/
def ins_new2 (op a1 a16 : Nat) : Nat :=
  op % 2 ^ 8 ||| (a1 % 2 ^ 8) <<< 8 ||| (a16 % 2 ^ 16) <<< 16

/-- `bc_new1` / `ins_new1`: a single combined 24-bit argument; the C computes
`((uint32_t) arg) << 8` which wraps modulo `2^32`. -/
def ins_new1 (op arg : Nat) : Nat :=
  op % 2 ^ 8 ||| ((arg % 2 ^ 32) <<< 8) % 2 ^ 32

/-- `bc_op` / `ins_op`: the opcode byte. -/
def ins_op (w : Nat) : Nat := w &&& 0xff

/-- `bc_set_op` / `ins_set_op`. -/
def ins_set_op (w op : Nat) : Nat := (w &&& 0xffffff00) ||| op % 2 ^ 32

/-- `bc_arg1` / `ins_arg1`. -/
def ins_arg1 (w : Nat) : Nat := (w &&& 0x0000ff00) >>> 8

/-- `bc_set_arg1` / `ins_set_arg1`. -/
def ins_set_arg1 (w a1 : Nat) : Nat := (w &&& 0xffff00ff) ||| (a1 % 2 ^ 8) <<< 8

/-- `bc_arg2` / `ins_arg2`. -/
def ins_arg2 (w : Nat) : Nat := (w &&& 0x00ff0000) >>> 16

/-- `bc_arg3` / `ins_arg3`. -/
def ins_arg3 (w : Nat) : Nat := (w &&& 0xff000000) >>> 24

/-- `bc_arg24` / `ins_arg24`: the combined 24-bit argument. -/
def ins_arg24 (w : Nat) : Nat := (w &&& 0xffffff00) >>> 8

/-- `bc_set_arg24` / `ins_set_arg24`; the C computes `arg24 << 8` on a
`uint32_t`, wrapping modulo `2^32`. -/
def ins_set_arg24 (w arg24 : Nat) : Nat :=
  (w &&& 0x000000ff) ||| ((arg24 % 2 ^ 32) <<< 8) % 2 ^ 32

/-- `bc_arg16` / `ins_arg16`: the combined 16-bit argument. -/
def ins_arg16 (w : Nat) : Nat := (w &&& 0xffff0000) >>> 16

/-! Opcode values of the `Opcode` enum in src/vm/bytecode.h (the compiler's
instruction set; it has no LOOP opcode). -/

def OP_MOV : Nat := 0
def OP_SET_N : Nat := 1
def OP_SET_P : Nat := 2
def OP_SET_F : Nat := 3
def OP_ADD_LL : Nat := 4
def OP_ADD_LN : Nat := 5
def OP_SUB_LL : Nat := 6
def OP_SUB_LN : Nat := 7
def OP_SUB_NL : Nat := 8
def OP_MUL_LL : Nat := 9
def OP_MUL_LN : Nat := 10
def OP_DIV_LL : Nat := 11
def OP_DIV_LN : Nat := 12
def OP_DIV_NL : Nat := 13
def OP_NEG : Nat := 14
def OP_EQ_LL : Nat := 15
def OP_EQ_LN : Nat := 16
def OP_EQ_LP : Nat := 17
def OP_NEQ_LL : Nat := 18
def OP_NEQ_LN : Nat := 19
def OP_NEQ_LP : Nat := 20
def OP_LT_LL : Nat := 21
def OP_LT_LN : Nat := 22
def OP_LE_LL : Nat := 23
def OP_LE_LN : Nat := 24
def OP_GT_LL : Nat := 25
def OP_GT_LN : Nat := 26
def OP_GE_LL : Nat := 27
def OP_GE_LN : Nat := 28
def OP_JMP : Nat := 29
def OP_CALL : Nat := 30
def OP_RET : Nat := 31

/-! Opcode values of the `BcOp` enum in src/bytecode.h (the interpreter's
instruction set; identical up to OP_JMP, then BC_LOOP is inserted before
CALL and RET). -/

def BC_MOV : Nat := 0
def BC_SET_N : Nat := 1
def BC_SET_P : Nat := 2
def BC_SET_F : Nat := 3
def BC_ADD_LL : Nat := 4
def BC_ADD_LN : Nat := 5
def BC_SUB_LL : Nat := 6
def BC_SUB_LN : Nat := 7
def BC_SUB_NL : Nat := 8
def BC_MUL_LL : Nat := 9
def BC_MUL_LN : Nat := 10
def BC_DIV_LL : Nat := 11
def BC_DIV_LN : Nat := 12
def BC_DIV_NL : Nat := 13
def BC_NEG : Nat := 14
def BC_EQ_LL : Nat := 15
def BC_EQ_LN : Nat := 16
def BC_EQ_LP : Nat := 17
def BC_NEQ_LL : Nat := 18
def BC_NEQ_LN : Nat := 19
def BC_NEQ_LP : Nat := 20
def BC_LT_LL : Nat := 21
def BC_LT_LN : Nat := 22
def BC_LE_LL : Nat := 23
def BC_LE_LN : Nat := 24
def BC_GT_LL : Nat := 25
def BC_GT_LN : Nat := 26
def BC_GE_LL : Nat := 27
def BC_GE_LN : Nat := 28
def BC_JMP : Nat := 29
def BC_LOOP : Nat := 30
def BC_CALL : Nat := 31
def BC_RET : Nat := 32

/-- `JMP_BIAS` (src/parser.h): the bias added to every stored jump offset. -/
def JMP_BIAS : Nat := 0x800000

/-! ### src/vm/util.c : package-name extraction and FNV hashing -/

/-- Magic prime for FNV hashing (`FNV_64_PRIME`). -/
def FNV_64_PRIME : Nat := 0x100000001b3

/-- `hash_string` (src/vm/util.c): for each byte, multiply the running hash
by the FNV prime (modulo `2^64` from `uint64_t` overflow), then XOR in the
byte.  The seed is 0.  Takes the string as its list of bytes. -/
def hash_string (bytes : List Nat) : Nat :=
  bytes.foldl (fun hash b => hash * FNV_64_PRIME % 2 ^ 64 ^^^ b % 2 ^ 8) 0

/-- The byte list of an ASCII string (the C `char *` contents). -/
def strBytes (s : String) : List Nat := s.data.map Char.toNat

/-- Loop of `rfind`: scan indices `n-1, n-2, ...` for the character.  The C
declares the result as `size_t` but computes it in an `int` that reaches -1,
and every caller stores it back into an `int`; the value is modelled as the
`Int` the callers observe. -/
def rfind_loop (s : List Char) (ch : Char) : Nat → Int
  | 0 => -1
  | n + 1 => if s.getD n '\x00' == ch then (n : Int) else rfind_loop s ch n

/-- `rfind` (src/vm/util.c): position of the last occurrence of `ch`, or -1
when absent (the scan starts at `strlen(string) - 1`). -/
def rfind (s : List Char) (ch : Char) : Int := rfind_loop s ch s.length

/-- `extract_pkg_name` (src/vm/util.c): extract the package name from a file
path and return its hash.  Note the "could not be extracted" return value in
the C is `!((uint64_t) 0)` - logical not, i.e. 1, not the all-ones `~0`. -/
def extract_pkg_name (path : List Char) : Nat :=
  let length : Int := path.length
  let last_path : Int := rfind path '/'
  let last_dot0 : Int := rfind path '.'
  -- If the dot is before the final path component there is no file extension
  let last_dot : Int := if last_path ≠ -1 ∧ last_dot0 < last_path then -1 else last_dot0
  if last_path = -1 ∧ last_dot = -1 then
    -- No path components and no file extension: the path itself is the name
    hash_string (path.map Char.toNat)
  else if last_path = -1 then
    -- File extension, but no path components
    hash_string ((path.take last_dot.toNat).map Char.toNat)
  else
    -- Stop before the file extension if one exists
    let stop : Int := if last_dot ≠ -1 then last_dot else length
    if stop - last_path ≤ 1 then 1
    else hash_string (((path.drop (last_path.toNat + 1)).take
      (stop - last_path - 1).toNat).map Char.toNat)

/-! ### src/value.h : NaN-boxed values (the interpreter's version) -/

/-- `QUIET_NAN` (src/value.h). -/
def QUIET_NAN : Nat := 0x7ffc000000000000

/-- `TAG_PRIM` (src/value.h). -/
def TAG_PRIM : Nat := QUIET_NAN ||| 0x10000

/-- `n2v` (src/value.h) bit-casts a double to a 64-bit Value; on bit-pattern
representatives it is the identity. -/
def n2v (num : Nat) : Nat := num

/-! ### src/vm.c : the interpreter's relational instructions (vm_run)

One step of `vm_run` on a relational opcode (src/vm.c lines 411-442).  Each
handler is `if (cond) { ip++; } NEXT();` where `NEXT()` advances `ip` once
more: the following instruction is skipped exactly when `cond` holds, and
`cond` is the *inverse* of the relation named by the opcode (see the comment
in vm.c: the JMP that always follows is to be taken when the condition is
true).  Equality variants compare the 64-bit Values with C `==`/`!=` on
`uint64_t`; ordering variants compare `v2n`-unpacked doubles.  No handler
writes to the stack.  `k` is the constants pool, `stk` the stack; the result
is the pair (stack, new ip), or `none` for an opcode that is not one of the
14 relational opcodes (outside the scope of this step function). -/
def vm_step_rel (k stk : List Nat) (w : Nat) (ip : Nat) : Option (List Nat × Nat) :=
  let op := ins_op w
  let a1 := stk.getD (ins_arg1 w) 0
  let a2l := stk.getD (ins_arg2 w) 0
  let a2n := k.getD (ins_arg2 w) 0
  let a2p := TAG_PRIM ||| ins_arg2 w
  let skip : Bool → Option (List Nat × Nat) := fun cond =>
    some (stk, if cond then ip + 2 else ip + 1)
  if op = BC_EQ_LL then skip (a1 != a2l)
  else if op = BC_EQ_LN then skip (a1 != a2n)
  else if op = BC_EQ_LP then skip (a1 != a2p)
  else if op = BC_NEQ_LL then skip (a1 == a2l)
  else if op = BC_NEQ_LN then skip (a1 == a2n)
  else if op = BC_NEQ_LP then skip (a1 == a2p)
  else if op = BC_LT_LL then skip (dblGe a1 a2l)
  else if op = BC_LT_LN then skip (dblGe a1 a2n)
  else if op = BC_LE_LL then skip (dblGt a1 a2l)
  else if op = BC_LE_LN then skip (dblGt a1 a2n)
  else if op = BC_GT_LL then skip (dblLe a1 a2l)
  else if op = BC_GT_LN then skip (dblLe a1 a2n)
  else if op = BC_GE_LL then skip (dblLt a1 a2l)
  else if op = BC_GE_LN then skip (dblLt a1 a2n)
  else none

/-- The 14 relational opcodes of src/bytecode.h. -/
def relOpcodes : List Nat :=
  [BC_EQ_LL, BC_EQ_LN, BC_EQ_LP, BC_NEQ_LL, BC_NEQ_LN, BC_NEQ_LP,
   BC_LT_LL, BC_LT_LN, BC_LE_LL, BC_LE_LN, BC_GT_LL, BC_GT_LN,
   BC_GE_LL, BC_GE_LN]

/-- The relation *named* by a relational opcode (the specification's reading:
`EQ_*` names bitwise Value equality, `NEQ_*` its negation, and the ordering
opcodes name the IEEE comparison of the operands unpacked as doubles). -/
def relNamed (op l r : Nat) : Bool :=
  if op = BC_EQ_LL ∨ op = BC_EQ_LN ∨ op = BC_EQ_LP then l == r
  else if op = BC_NEQ_LL ∨ op = BC_NEQ_LN ∨ op = BC_NEQ_LP then l != r
  else if op = BC_LT_LL ∨ op = BC_LT_LN then dblLt l r
  else if op = BC_LE_LL ∨ op = BC_LE_LN then dblLe l r
  else if op = BC_GT_LL ∨ op = BC_GT_LN then dblGt l r
  else if op = BC_GE_LL ∨ op = BC_GE_LN then dblGe l r
  else false

/-- The second operand of a relational instruction: a stack slot for the
`_LL` variants, a constant for `_LN`, a primitive-tagged immediate for
`_LP`. -/
def relRhs (k stk : List Nat) (w : Nat) : Nat :=
  let op := ins_op w
  if op = BC_EQ_LL ∨ op = BC_NEQ_LL ∨ op = BC_LT_LL ∨ op = BC_LE_LL ∨
     op = BC_GT_LL ∨ op = BC_GE_LL then stk.getD (ins_arg2 w) 0
  else if op = BC_EQ_LP ∨ op = BC_NEQ_LP then TAG_PRIM ||| ins_arg2 w
  else k.getD (ins_arg2 w) 0

/-- The ordering opcodes (the variants that unpack their operands as
doubles). -/
def isOrdOpcode (op : Nat) : Bool :=
  op == BC_LT_LL || op == BC_LT_LN || op == BC_LE_LL || op == BC_LE_LN ||
  op == BC_GT_LL || op == BC_GT_LN || op == BC_GE_LL || op == BC_GE_LN

/-! ### src/vm.c : the constants pool (vm_add_num) -/

/-- The search loop of `vm_add_num`: index of the first pool entry bitwise
equal to `v`, if any. -/
def find_const : List Nat → Nat → Option Nat
  | [], _ => none
  | c :: rest, v => if c = v then some 0 else (find_const rest v).map (· + 1)

/-- `vm_add_num` (src/vm.c lines 77-97): convert the number to a Value with
`n2v`, return the index of an existing bitwise-equal entry if there is one,
otherwise append the converted value and return its index.  Returns the
index and the new pool. -/
def vm_add_num (consts : List Nat) (num : Nat) : Nat × List Nat :=
  let converted := n2v num
  match find_const consts converted with
  | some i => (i, consts)
  | none => (consts.length, consts ++ [converted])

/-! ### src/jit/ir.h : IR instruction words

An IR instruction is a `Nat < 2^64`: four 16-bit fields (opcode, arg1, arg2,
allocated register). -/

/-- `ir_new2`: the `IrRef` (uint16_t) parameter types appear as `% 2^16`. -/
def ir_new2 (op a1 a2 : Nat) : Nat :=
  op % 2 ^ 16 ||| (a1 % 2 ^ 16) <<< 16 ||| (a2 % 2 ^ 16) <<< 32

/-- `ir_new1`: a single 32-bit argument. -/
def ir_new1 (op arg : Nat) : Nat := op % 2 ^ 16 ||| (arg % 2 ^ 32) <<< 16

/-- `ir_op`. -/
def ir_op (w : Nat) : Nat := w &&& 0xffff

/-- `ir_op_prefix`: the prefix byte of the opcode (bits 8..15, still in
place). -/
def ir_op_prefix (w : Nat) : Nat := w &&& 0xff00

/-- `ir_arg1`: `(IrRef) (ins >> 16)`. -/
def ir_arg1 (w : Nat) : Nat := w >>> 16 % 2 ^ 16

/-- `ir_arg2`: `(IrRef) (ins >> 32)`. -/
def ir_arg2 (w : Nat) : Nat := w >>> 32 % 2 ^ 16

/-- `ir_arg32`: the merged 32-bit argument. -/
def ir_arg32 (w : Nat) : Nat := w >>> 16 % 2 ^ 32

/-- `ir_reg`: the register assigned to the instruction's result. -/
def ir_reg (w : Nat) : Nat := w >>> 48 % 2 ^ 16

/-- `ir_set_reg`. -/
def ir_set_reg (w reg : Nat) : Nat :=
  (w &&& 0x0000ffffffffffff) ||| (reg % 2 ^ 16) <<< 48

/-- `IR_LOAD_STACK` (prefix 0x00). -/
def IR_LOAD_STACK : Nat := 0x0000

/-- `IR_LOAD_CONST` (prefix 0x00). -/
def IR_LOAD_CONST : Nat := 0x0001

/-- `IR_ADD` (prefix 0x01). -/
def IR_ADD : Nat := 0x0100

/-- `IROP_PREFIX_LOAD`. -/
def IROP_PREFIX_LOAD : Nat := 0x00

/-- `IR_NONE`: IR references start at 1 so that 0 means "does not exist". -/
def IR_NONE : Nat := 0

/-! ### src/jit/compiler.c : the trace recorder -/

/-- A JIT trace (src/jit/compiler.h).  `ir` holds the instructions; the C
array's occupancy `ir_count` starts at 1 (index 0 is never written), which
is modelled by a dummy word 0 at the head of the list, so `ir.length` always
equals `ir_count`.  The fixed-size arrays `last_modified` (MAX_LOCALS_IN_FN
entries) and `const_loads` (MAX_CONSTS entries), both zero-initialised by
`jit_trace_new`, are modelled as total maps. -/
structure Trace where
  ir : List Nat
  last_modified : Nat → Nat
  const_loads : Nat → Nat

/-- `jit_trace_new` (src/jit/compiler.c): `ir_count = 1`, both dedup tables
cleared to `IR_NONE`. -/
def jit_trace_new : Trace :=
  { ir := [0], last_modified := fun _ => IR_NONE, const_loads := fun _ => IR_NONE }

/-- Pointwise update of a dedup table. -/
def tblSet (f : Nat → Nat) (i v : Nat) : Nat → Nat :=
  fun j => if j = i then v else f j

/-- `ir_emit` (src/jit/compiler.c): append the instruction and return its
index. -/
def ir_emit (t : Trace) (ins : Nat) : Nat × Trace :=
  (t.ir.length, { t with ir := t.ir ++ [ins] })

/-- `ir_load_stack` (src/jit/compiler.c lines 60-70): emit a stack load the
first time a slot is read, afterwards reuse the most recent writer of the
slot. -/
def ir_load_stack (t : Trace) (slot : Nat) : Nat × Trace :=
  if t.last_modified slot = IR_NONE then
    let (load, t') := ir_emit t (ir_new1 IR_LOAD_STACK slot)
    (load, { t' with last_modified := tblSet t'.last_modified slot load })
  else
    (t.last_modified slot, t)

/-- `ir_load_const` (src/jit/compiler.c lines 75-86): emit a constant load
the first time a constant is read, afterwards reuse the cached load. -/
def ir_load_const (t : Trace) (const_idx : Nat) : Nat × Trace :=
  if t.const_loads const_idx = IR_NONE then
    let (load, t') := ir_emit t (ir_new1 IR_LOAD_CONST const_idx)
    (load, { t' with const_loads := tblSet t'.const_loads const_idx load })
  else
    (t.const_loads const_idx, t)

/-- `jit_rec_MOV`: no IR is emitted; the destination slot's writer becomes
the source slot's writer. -/
def jit_rec_MOV (t : Trace) (bc : Nat) : Trace :=
  { t with last_modified :=
      tblSet t.last_modified (ins_arg1 bc) (t.last_modified (ins_arg2 bc)) }

/-- `jit_rec_SET_N`: load the constant and make it the destination slot's
writer. -/
def jit_rec_SET_N (t : Trace) (bc : Nat) : Trace :=
  let (load, t') := ir_load_const t (ins_arg16 bc)
  { t' with last_modified := tblSet t'.last_modified (ins_arg1 bc) load }

/-- `jit_rec_ADD_LL` (src/jit/compiler.c lines 115-127). -/
def jit_rec_ADD_LL (t : Trace) (bc : Nat) : Trace :=
  let (left, t1) := ir_load_stack t (ins_arg2 bc)
  let (right, t2) := ir_load_stack t1 (ins_arg3 bc)
  let (result, t3) := ir_emit t2 (ir_new2 IR_ADD left right)
  { t3 with last_modified := tblSet t3.last_modified (ins_arg1 bc) result }

/-- `jit_rec_ADD_LN` (src/jit/compiler.c lines 129-134). -/
def jit_rec_ADD_LN (t : Trace) (bc : Nat) : Trace :=
  let (left, t1) := ir_load_stack t (ins_arg2 bc)
  let (right, t2) := ir_load_const t1 (ins_arg3 bc)
  let (result, t3) := ir_emit t2 (ir_new2 IR_ADD left right)
  { t3 with last_modified := tblSet t3.last_modified (ins_arg1 bc) result }

/-- Record one bytecode instruction into the trace: the four recorder
handlers that src/jit/compiler.c implements; every other handler is
`UNIMPLEMENTED()` (an assertion loop), modelled as `none`. -/
def jit_rec_ins (t : Trace) (bc : Nat) : Option Trace :=
  let op := ins_op bc
  if op = BC_MOV then some (jit_rec_MOV t bc)
  else if op = BC_SET_N then some (jit_rec_SET_N t bc)
  else if op = BC_ADD_LL then some (jit_rec_ADD_LL t bc)
  else if op = BC_ADD_LN then some (jit_rec_ADD_LN t bc)
  else none

/-- Record a linear bytecode sequence into a trace, instruction by
instruction (the recording dispatch loop of vm_run / test_compiler's
`compile`). -/
def jit_record (t : Trace) : List Nat → Option Trace
  | [] => some t
  | bc :: rest => match jit_rec_ins t bc with
    | some t' => jit_record t' rest
    | none => none

/-! ### src/jit/asm/x64.c : live ranges and linear-scan register allocation -/

/-- `HY_ARCH_NUM_REGS` for the reference x64 target. -/
def HY_ARCH_NUM_REGS : Nat := 16

/-- One step of `asm_calculate_live_ranges` at instruction index `i`: loads
take no IR references and are skipped; any other instruction sets the last
use of each of its two argument references, unless a later instruction (the
pass runs in reverse) already did. -/
def asm_lr_step (ir : List Nat) (i : Nat) (lr : Nat → Nat) : Nat → Nat :=
  let ins := ir.getD i 0
  if ir_op_prefix ins = IROP_PREFIX_LOAD then lr
  else
    let arg1 := ir_arg1 ins
    let arg2 := ir_arg2 ins
    let lr1 := if lr arg1 = IR_NONE then tblSet lr arg1 i else lr
    if lr1 arg2 = IR_NONE then tblSet lr1 arg2 i else lr1

/-- The reverse iteration of `asm_calculate_live_ranges`: process indices
`i, i-1, ..., 1`. -/
def asm_lr_go (ir : List Nat) : Nat → (Nat → Nat) → Nat → Nat
  | 0, lr => lr
  | i + 1, lr => asm_lr_go ir i (asm_lr_step ir (i + 1) lr)

/-- `asm_calculate_live_ranges` (src/jit/asm/x64.c lines 45-73): the live
range table, `calloc`-initialised to `IR_NONE` and filled in reverse order
from `ir_count - 1` down to 1. -/
def asm_calculate_live_ranges (ir : List Nat) : Nat → Nat :=
  asm_lr_go ir (ir.length - 1) (fun _ => IR_NONE)

/-- The freeing loop at the head of each allocation step: every register
whose live range ends at this instruction becomes free (`IR_NONE`). -/
def asm_free_regs (regEnd : Nat → Nat) (ins_ref : Nat) : Nat → Nat :=
  fun r => if r < HY_ARCH_NUM_REGS ∧ regEnd r = ins_ref then IR_NONE else regEnd r

/-- The register-search loop: the lowest register index `< HY_ARCH_NUM_REGS`
that is currently free. -/
def asm_find_free (regEnd : Nat → Nat) : Nat → Option Nat
  | 0 => none
  | n + 1 =>
    let r := HY_ARCH_NUM_REGS - (n + 1)
    if regEnd r = IR_NONE then some r else asm_find_free regEnd n

/-- One iteration of the allocation loop of `asm_allocate_registers` at
instruction `ins_ref`: free ended registers, then assign the lowest free
register and mark it busy until the instruction's last use.  `none` models
the `assert(false)` spill path (spilling is unimplemented). -/
def asm_alloc_step (lr : Nat → Nat) (ins_ref : Nat) :
    List Nat × (Nat → Nat) → Option (List Nat × (Nat → Nat))
  | (ir, regEnd) =>
    let regEnd1 := asm_free_regs regEnd ins_ref
    match asm_find_free regEnd1 HY_ARCH_NUM_REGS with
    | some reg =>
      some (ir.set ins_ref (ir_set_reg (ir.getD ins_ref 0) reg),
            tblSet regEnd1 reg (lr ins_ref))
    | none => none

/-- The forward iteration of the allocation loop, processing instruction
indices `ins_ref, ins_ref + 1, ...` while `ins_ref < count`; `n` counts the
remaining iterations (`count - ins_ref`). -/
def asm_alloc_go (lr : Nat → Nat) (count : Nat) :
    Nat → List Nat × (Nat → Nat) → Option (List Nat × (Nat → Nat))
  | 0, st => some st
  | n + 1, st =>
    let ins_ref := count - (n + 1)
    match asm_alloc_step lr ins_ref st with
    | some st' => asm_alloc_go lr count n st'
    | none => none

/-- `asm_allocate_registers` (src/jit/asm/x64.c lines 75-125): compute live
ranges, then scan the instructions from index 1 upward, assigning each the
lowest free register; `none` when no register is free (the unimplemented
spill assertion). -/
def asm_allocate_registers (t : Trace) : Option Trace :=
  let lr := asm_calculate_live_ranges t.ir
  match asm_alloc_go lr t.ir.length (t.ir.length - 1) (t.ir, fun _ => IR_NONE) with
  | some (ir', _) => some { t with ir := ir' }
  | none => none

/-! ### src/vm/lexer.h, src/vm/lexer.c : tokens and the lexer

Tokens are `int`s: a single-character token is its character code, the
multi-character tokens take the successive values of the `multi_tks` enum
starting at 256. -/

def TK_CONCAT : Nat := 256
def TK_ADD_ASSIGN : Nat := 257
def TK_SUB_ASSIGN : Nat := 258
def TK_MUL_ASSIGN : Nat := 259
def TK_DIV_ASSIGN : Nat := 260
def TK_MOD_ASSIGN : Nat := 261
def TK_EQ : Nat := 262
def TK_NEQ : Nat := 263
def TK_LE : Nat := 264
def TK_GE : Nat := 265
def TK_AND : Nat := 266
def TK_OR : Nat := 267
def TK_LET : Nat := 268
def TK_IF : Nat := 269
def TK_ELSE : Nat := 270
def TK_ELSEIF : Nat := 271
def TK_LOOP : Nat := 272
def TK_WHILE : Nat := 273
def TK_FOR : Nat := 274
def TK_FN : Nat := 275
def TK_IDENT : Nat := 276
def TK_NUM : Nat := 277
def TK_FALSE : Nat := 278
def TK_TRUE : Nat := 279
def TK_NIL : Nat := 280
def TK_EOF : Nat := 281

/-- `TkInfo` (src/vm/lexer.h).  In the C, `num` and `ident_hash` share a
union; they are modelled as two fields, and every write the C makes through
one member also clears the other. -/
structure TkInfo where
  type : Nat
  start : Nat
  length : Nat
  line : Nat
  num : Nat
  ident_hash : Nat
deriving DecidableEq

/-- `Lexer` (src/vm/lexer.h).  The `vm` and `path` fields only feed error
construction and are omitted; the source is NUL-terminated, modelled by
reads past the end of the list returning `'\x00'`. -/
structure Lexer where
  code : List Char
  cursor : Nat
  line : Nat
  tk : TkInfo
deriving DecidableEq

/-- Read a character of the NUL-terminated source. -/
def lex_ch (code : List Char) (i : Nat) : Char := code.getD i '\x00'

/-- `is_whitespace`. -/
def is_whitespace (c : Char) : Bool := c == '\r' || c == '\n' || c == '\t' || c == ' '

/-- `is_decimal_digit`. -/
def is_decimal_digit (c : Char) : Bool := 48 ≤ c.toNat && c.toNat ≤ 57

/-- `is_ident_start`. -/
def is_ident_start (c : Char) : Bool :=
  (97 ≤ c.toNat && c.toNat ≤ 122) || (65 ≤ c.toNat && c.toNat ≤ 90) || c == '_'

/-- `is_ident_continue`. -/
def is_ident_continue (c : Char) : Bool := is_ident_start c || is_decimal_digit c

/-- `lex_new` (src/vm/lexer.c). -/
def lex_new (code : List Char) : Lexer :=
  { code := code, cursor := 0, line := 1,
    tk := { type := TK_EOF, start := 0, length := 0, line := 1,
            num := 0, ident_hash := 0 } }

/-- `lex_whitespace` (src/vm/lexer.c): consume whitespace, counting lines
and treating `\r\n` as one newline.  The loop carries fuel; any fuel above
the remaining source length behaves like the C loop. -/
def lex_whitespace : Nat → Lexer → Lexer
  | 0, lxr => lxr
  | fuel + 1, lxr =>
    let ch := lex_ch lxr.code lxr.cursor
    if is_whitespace ch then
      let lxr :=
        if ch == '\n' || ch == '\r' then
          let lxr :=
            if ch == '\r' && lex_ch lxr.code (lxr.cursor + 1) == '\n' then
              { lxr with cursor := lxr.cursor + 1 }
            else lxr
          { lxr with line := lxr.line + 1 }
        else lxr
      lex_whitespace fuel { lxr with cursor := lxr.cursor + 1 }
    else lxr

/-- The reserved-keyword table of `lex_ident` (src/vm/lexer.c lines 73-76):
`{"let", "if", "else", "elseif", "loop", "while", "for", NULL}` paired with
`{TK_LET, TK_IF, TK_ELSE, TK_ELSEIF, TK_LOOP, TK_WHILE, TK_FOR}`. -/
def keywords : List (String × Nat) :=
  [("let", TK_LET), ("if", TK_IF), ("else", TK_ELSE), ("elseif", TK_ELSEIF),
   ("loop", TK_LOOP), ("while", TK_WHILE), ("for", TK_FOR)]

/-- The keyword-search loop of `lex_ident`: the token of the first keyword
whose length and bytes both match the candidate. -/
def keyword_lookup (candidate : List Char) : List (String × Nat) → Option Nat
  | [] => none
  | (kw, tk) :: rest =>
    if candidate.length = kw.length ∧ candidate = kw.data then some tk
    else keyword_lookup candidate rest

/-- `lex_ident` (src/vm/lexer.c lines 63-89): scan the identifier, try the
reserved keywords, otherwise produce `TK_IDENT` carrying the FNV hash of the
identifier.  (`lex_next` has just set `tk.start` to the cursor, so the C's
`cursor - tk.start` equals the scanned length.) -/
def lex_ident (lxr : Lexer) : Lexer :=
  let candidate := (lxr.code.drop lxr.cursor).takeWhile is_ident_continue
  let cursor' := lxr.cursor + candidate.length
  let len := cursor' - lxr.tk.start
  match keyword_lookup candidate keywords with
  | some tk =>
    { lxr with cursor := cursor', tk := { lxr.tk with length := len, type := tk } }
  | none =>
    { lxr with
      cursor := cursor',
      tk := { lxr.tk with
              length := len, type := TK_IDENT,
              ident_hash := hash_string (candidate.map Char.toNat) } }

/-- Value of a hexadecimal digit character. -/
def digitVal (c : Char) : Nat :=
  if 48 ≤ c.toNat ∧ c.toNat ≤ 57 then c.toNat - 48
  else if 97 ≤ c.toNat ∧ c.toNat ≤ 102 then c.toNat - 87
  else if 65 ≤ c.toNat ∧ c.toNat ≤ 70 then c.toNat - 55
  else 0

/-- Digit test for an integer base (10, 16, 8 or 2). -/
def is_digit_in_base (base : Nat) (c : Char) : Bool :=
  if base = 16 then
    is_decimal_digit c || (97 ≤ c.toNat && c.toNat ≤ 102) ||
      (65 ≤ c.toNat && c.toNat ≤ 70)
  else 48 ≤ c.toNat && c.toNat < 48 + base

/-- Value of a digit string in a base. -/
def digitsToNat (base : Nat) (ds : List Char) : Nat :=
  ds.foldl (fun acc c => acc * base + digitVal c) 0

/-- `lex_float` (src/vm/lexer.c lines 124-147).  The C reads the number with
`strtod`; the model covers `strtod` on the decimal *integer* literals that
occur in this development (a maximal run of decimal digits, converted
exactly); fractional/exponent forms and the `errno` range-error path are
outside the model. -/
def lex_float (lxr : Lexer) : Lexer :=
  let digits := (lxr.code.drop lxr.cursor).takeWhile is_decimal_digit
  { lxr with
    cursor := lxr.cursor + digits.length,
    tk := { lxr.tk with
            type := TK_NUM, length := digits.length,
            num := natToDouble (digitsToNat 10 digits) } }

/-- `lex_int` (src/vm/lexer.c lines 92-121): skip the two-character prefix
for bases other than 10 and 16 (`strtoull` consumes the `0x` prefix itself
for base 16), read the digits, convert.  The `errno` overflow path is
outside the model. -/
def lex_int (base : Nat) (lxr : Lexer) : Lexer :=
  let lxr := if base ≠ 10 ∧ base ≠ 16 then { lxr with cursor := lxr.cursor + 2 } else lxr
  let pre := if base = 16 then 2 else 0
  let digits := (lxr.code.drop (lxr.cursor + pre)).takeWhile (is_digit_in_base base)
  let len := pre + digits.length
  { lxr with
    cursor := lxr.cursor + len,
    tk := { lxr.tk with
            type := TK_NUM, length := len,
            num := natToDouble (digitsToNat base digits) } }

/-- `lex_num` (src/vm/lexer.c lines 150-167). -/
def lex_num (lxr : Lexer) : Lexer :=
  let base :=
    if lex_ch lxr.code lxr.cursor == '0' then
      let p := lex_ch lxr.code (lxr.cursor + 1)
      if p == 'x' || p == 'X' then 16
      else if p == 'o' || p == 'O' then 8
      else if p == 'b' || p == 'B' then 2
      else 10
    else 10
  if base = 10 then lex_float lxr else lex_int base lxr

/-- The `MULTI_CHAR_TK` case sequence of `lex_next`, in source order.  Each
entry is (case label, expected second character, token). -/
def multi_tks : List (Char × Char × Nat) :=
  [('.', '.', TK_CONCAT),
   ('+', '=', TK_ADD_ASSIGN), ('-', '=', TK_SUB_ASSIGN), ('*', '=', TK_MUL_ASSIGN),
   ('/', '=', TK_DIV_ASSIGN), ('%', '=', TK_MOD_ASSIGN),
   ('<', '=', TK_LE), ('>', '=', TK_GE), ('=', '=', TK_EQ), ('!', '=', TK_NEQ),
   ('&', '&', TK_AND), ('|', '|', TK_OR)]

/-- The suffix of the case sequence starting at the case label for `c` (the
C switch jumps to the matching label). -/
def find_case (c : Char) : List (Char × Char × Nat) → Option (List (Char × Char × Nat))
  | [] => none
  | e :: rest => if c == e.1 then some (e :: rest) else find_case c rest

/-- The fall-through of the `MULTI_CHAR_TK` cases: each failing case falls
into the body of the next one, re-testing the next source character against
that case's second character, until one matches (`break` inside the `if`)
or the `default` case is reached. -/
def multi_lookup (next : Char) : List (Char × Char × Nat) → Option Nat
  | [] => none
  | (_, second, tk) :: rest =>
    if next == second then some tk else multi_lookup next rest

/-- `lex_next` (src/vm/lexer.c lines 179-245).  The fuel only bounds the
whitespace-then-retry self-recursion (one retry always suffices because
`lex_whitespace` consumes every whitespace character).  Writing
`tk.ident_hash = 0` in the C also clears `tk.num` through the union. -/
def lex_next : Nat → Lexer → Lexer
  | 0, lxr => lxr
  | fuel + 1, lxr =>
    let lxr := { lxr with
                 tk := { lxr.tk with
                         line := lxr.line, start := lxr.cursor,
                         ident_hash := 0, num := 0 } }
    let c := lex_ch lxr.code lxr.cursor
    if c == '\x00' then
      { lxr with tk := { lxr.tk with type := TK_EOF, length := 0 } }
    else if is_whitespace c then
      lex_next fuel (lex_whitespace (lxr.code.length + 1) lxr)
    else if is_ident_start c then lex_ident lxr
    else if is_decimal_digit c then lex_num lxr
    else
      let (ty, len) :=
        match find_case c multi_tks with
        | some chain =>
          match multi_lookup (lex_ch lxr.code (lxr.cursor + 1)) chain with
          | some tk => (tk, 2)
          | none => (c.toNat, 1)
        | none => (c.toNat, 1)
      { lxr with
        cursor := lxr.cursor + len,
        tk := { lxr.tk with type := ty, length := len } }

/-- The first token of a source string: `lex_new` followed by one
`lex_next`. -/
def lex_first (src : String) : TkInfo :=
  (lex_next (src.length + 2) (lex_new src.data)).tk

/-! ### src/vm/value.h : primitives (the compiler's version) -/

/-- `PRIM_FALSE` (src/vm/value.h). -/
def PRIM_FALSE : Nat := 0

/-- `PRIM_TRUE` (src/vm/value.h). -/
def PRIM_TRUE : Nat := 1

/-- `PRIM_NIL` (src/vm/value.h). -/
def PRIM_NIL : Nat := 2

/-! ### src/vm/vm.h, src/vm.c : the runtime containers used by the compiler -/

/-- `MAX_CONSTS` = `USHRT_MAX`. -/
def USHRT_MAX : Nat := 65535

/-- `Function` (src/vm/vm.h): owning package and bytecode (the capacity
bookkeeping of the growable array is irrelevant to the embedding;
`ins_count` is the list length). -/
structure Func where
  pkg : Nat
  ins : List Nat
deriving DecidableEq

/-- `Package` (src/vm/vm.h): 64-bit name hash and main-function index. -/
structure Package where
  name : Nat
  main_fn : Nat
deriving DecidableEq

/-- The compiler-relevant state of the `VM` / `HyVM` struct: packages,
functions and the constants pool. -/
structure VM where
  pkgs : List Package
  fns : List Func
  consts : List Nat
deriving DecidableEq

/-- `vm_new`: all lists empty. -/
def vm_new : VM := { pkgs := [], fns := [], consts := [] }

/-- `vm_new_fn` (src/vm.c lines 63-75): append an empty function, return its
index. -/
def vm_new_fn (vm : VM) (pkg_idx : Nat) : Nat × VM :=
  (vm.fns.length, { vm with fns := vm.fns ++ [{ pkg := pkg_idx, ins := [] }] })

/-- `vm_new_pkg` (src/vm.c lines 50-60): append a package whose `main_fn` is
a freshly created function, return the package index. -/
def vm_new_pkg (vm : VM) (name : Nat) : Nat × VM :=
  let pkg_idx := vm.pkgs.length
  let (main, vm') := vm_new_fn vm pkg_idx
  (pkg_idx, { vm' with pkgs := vm'.pkgs ++ [{ name := name, main_fn := main }] })

/-! ### src/vm/parser.c : the single-pass compiler

The parser state (`Parser`): the VM being extended, the lexer, the package
index, the stack of function-definition scopes (`FnScope`, innermost first;
the C links them through `outer_scope`) and the locals list (each `Local`
is its name hash). -/

/-- `FnScope` (src/vm/parser.c). -/
structure FnScope where
  fn : Nat
  first_local : Nat
  next_slot : Nat
deriving DecidableEq

/-- `Parser` (src/vm/parser.c). -/
structure Parser where
  vm : VM
  lxr : Lexer
  pkg : Nat
  scopes : List FnScope
  locals : List Nat
deriving DecidableEq

/-- Compiler errors: `comp` is an error raised through `psr_trigger_err` /
`err_trigger` (the C `longjmp` to the runtime's guard), carrying the
description and the line of the lexer's current token; `assertFail` models a
failing C `assert`; `outOfFuel` marks exhausted recursion fuel (never
reached by the theorems below, which supply sufficient fuel). -/
inductive PErr where
  | comp (desc : String) (line : Nat)
  | assertFail
  | outOfFuel
deriving DecidableEq

/-- The parser monad: state plus the first-error abort of the C's
`longjmp`. -/
def P (α : Type) : Type := Parser → Except PErr (α × Parser)

/-- Monad operations of `P`. -/
def P.pure (a : α) : P α := fun s => .ok (a, s)

/-- Sequencing in `P`: an error aborts everything after it (the C `longjmp`
never returns). -/
def P.bind (m : P α) (f : α → P β) : P β := fun s =>
  match m s with
  | .error e => .error e
  | .ok (a, s') => f a s'

instance : Monad P where
  pure := P.pure
  bind := P.bind

/-- Read the parser state. -/
def p_get : P Parser := fun s => .ok (s, s)

/-- Replace the parser state. -/
def p_set (s' : Parser) : P Unit := fun _ => .ok ((), s')

/-- Abort with an error. -/
def p_throw (e : PErr) : P α := fun _ => .error e

/-- `psr_trigger_err` (src/vm/parser.c lines 141-150): build an error with
the current token's line number and long-jump out of the compilation. -/
def psr_trigger_err (desc : String) : P α :=
  fun s => .error (.comp desc s.lxr.tk.line)

/-- `psr_new_local` (src/vm/parser.c lines 153-159). -/
def psr_new_local (name : Nat) : P Unit := do
  let s ← p_get
  p_set { s with locals := s.locals ++ [name] }

/-- The innermost function scope `psr->scope` (never NULL while parsing). -/
def cur_scope : P FnScope := fun s =>
  match s.scopes with
  | sc :: _ => .ok (sc, s)
  | [] => .error .assertFail

/-- Update the innermost function scope in place. -/
def set_cur_scope (sc : FnScope) : P Unit := fun s =>
  match s.scopes with
  | _ :: rest => .ok ((), { s with scopes := sc :: rest })
  | [] => .error .assertFail

/-- The bytecode of the function currently being emitted to
(`psr_fn(psr)->ins`). -/
def cur_fn_ins : P (List Nat) := do
  let sc ← cur_scope
  let s ← p_get
  pure (s.vm.fns.getD sc.fn { pkg := 0, ins := [] }).ins

/-- Overwrite the bytecode of the current function. -/
def set_cur_fn_ins (l : List Nat) : P Unit := do
  let sc ← cur_scope
  let s ← p_get
  let f := s.vm.fns.getD sc.fn { pkg := 0, ins := [] }
  p_set { s with vm := { s.vm with fns := s.vm.fns.set sc.fn { f with ins := l } } }

/-- `psr_fn(psr)->ins_count`. -/
def cur_ins_count : P Nat := do
  let l ← cur_fn_ins
  pure l.length

/-- `fn_emit` (src/vm.c lines 100-113) applied to the current function:
append the instruction, return its index. -/
def fn_emit (w : Nat) : P Nat := do
  let l ← cur_fn_ins
  set_cur_fn_ins (l ++ [w])
  pure l.length

/-- `vm_new_fn` called from the parser (`vm_new_fn(psr->vm, psr->pkg)`). -/
def m_vm_new_fn : P Nat := do
  let s ← p_get
  let (idx, vm') := vm_new_fn s.vm s.pkg
  p_set { s with vm := vm' }
  pure idx

/-- `lex_next` on the parser's lexer (the fuel covers any amount of
whitespace in the remaining source). -/
def p_lex_next : P Unit := do
  let s ← p_get
  p_set { s with lxr := lex_next (s.lxr.code.length + 2) s.lxr }

/-- Modelled from the spec: `lex_expect` is declared in src/vm/lexer.h
("Triggers an error if the current token isn't what's expected") and called
throughout src/vm/parser.c, but its definition is not among the source
files; the spec lists the corresponding parse errors ("unexpected token").
Modelled as: trigger a compile error unless the current token matches. -/
def p_lex_expect (tk : Nat) : P Unit := do
  let s ← p_get
  if s.lxr.tk.type = tk then pure () else psr_trigger_err "unexpected token"

/-- `SavedLexer` (src/vm/lexer.h). -/
structure SavedLexer where
  cursor : Nat
  line : Nat
  tk : TkInfo
deriving DecidableEq

/-- Modelled from the spec: `lex_save` is declared in src/vm/lexer.h
("Saves the lexer's current state for later restoration"); its definition
is not among the source files.  `SavedLexer` fixes the saved fields. -/
def lex_save (lxr : Lexer) : SavedLexer :=
  { cursor := lxr.cursor, line := lxr.line, tk := lxr.tk }

/-- Modelled from the spec: `lex_restore` is declared in src/vm/lexer.h
("Restores the lexer's state to a previously saved state"); its definition
is not among the source files. -/
def lex_restore (lxr : Lexer) (saved : SavedLexer) : Lexer :=
  { lxr with cursor := saved.cursor, line := saved.line, tk := saved.tk }

/-! #### Expression operand nodes -/

/-- `NodeType`/`Node` (src/vm/parser.c): the expression operand calculus.
Constructors in source order: `NODE_NUM` (an undischarged literal number,
as a double bit pattern), `NODE_LOCAL`, `NODE_PRIM`, `NODE_CONST`,
`NODE_RELOC`, `NODE_NON_RELOC`, `NODE_JMP` (the two jump-list heads,
-1 when empty). -/
inductive Node where
  | num (n : Nat)
  | loc (slot : Nat)
  | prim (p : Nat)
  | cnst (idx : Nat)
  | reloc (idx : Nat)
  | nonReloc (slot : Nat)
  | jmp (true_list false_list : Int)
deriving DecidableEq

/-- `node->type == NODE_NUM`. -/
def Node.isNum : Node → Bool
  | .num _ => true
  | _ => false

/-- `node->type == NODE_PRIM`. -/
def Node.isPrim : Node → Bool
  | .prim _ => true
  | _ => false

/-- The `NodeType` tag, for the C's `left->type != right.type` comparison. -/
def Node.tag : Node → Nat
  | .num _ => 0
  | .loc _ => 1
  | .prim _ => 2
  | .cnst _ => 3
  | .reloc _ => 4
  | .nonReloc _ => 5
  | .jmp _ _ => 6

/-- `node_is_const` (src/vm/parser.c lines 309-312). -/
def node_is_const (n : Node) : Bool := n.isNum || n.isPrim || n matches .cnst _

/-! #### Operator classification (src/vm/parser.c lines 266-379)

Precedence values follow the `Precedence` enum: NONE 0, OR 1, AND 2, EQ 3,
ORD 4, CONCAT 5, ADD 6, MUL 7, UNARY 8, then the call/index level 9. -/

/-- `binop_prec`: the precedence of a binary operator, -1 otherwise. -/
def binop_prec (t : Nat) : Int :=
  if t = TK_OR then 1
  else if t = TK_AND then 2
  else if t = TK_EQ ∨ t = TK_NEQ then 3
  else if t = '>'.toNat ∨ t = '<'.toNat ∨ t = TK_GE ∨ t = TK_LE then 4
  else if t = TK_CONCAT then 5
  else if t = '+'.toNat ∨ t = '-'.toNat then 6
  else if t = '*'.toNat ∨ t = '/'.toNat then 7
  else -1

/-- `unop_prec`: PREC_UNARY for `-` and `!`, -1 otherwise. -/
def unop_prec (t : Nat) : Int :=
  if t = '-'.toNat ∨ t = '!'.toNat then 8 else -1

/-- `binop_is_arith`. -/
def binop_is_arith (t : Nat) : Bool :=
  t == '+'.toNat || t == '-'.toNat || t == '*'.toNat || t == '/'.toNat

/-- `binop_is_rel`. -/
def binop_is_rel (t : Nat) : Bool :=
  t == TK_EQ || t == TK_NEQ || t == '>'.toNat || t == TK_GE ||
  t == '<'.toNat || t == TK_LE

/-- `binop_is_ord`. -/
def binop_is_ord (t : Nat) : Bool :=
  t == '>'.toNat || t == TK_GE || t == '<'.toNat || t == TK_LE

/-- `binop_is_commutative`. -/
def binop_is_commutative (t : Nat) : Bool :=
  t == '+'.toNat || t == '*'.toNat || t == TK_EQ || t == TK_NEQ

/-- `binop_invert_rel`: `a > b` ≡ `b < a` etc.; the default case is
`assert(false)`. -/
def binop_invert_rel (t : Nat) : P Nat :=
  if t = TK_EQ then pure TK_NEQ
  else if t = TK_NEQ then pure TK_EQ
  else if t = '>'.toNat then pure TK_LE
  else if t = TK_GE then pure '<'.toNat
  else if t = '<'.toNat then pure TK_GE
  else if t = TK_LE then pure '>'.toNat
  else p_throw .assertFail

/-- `relop_invert`: invert a relational opcode; the default case is
`assert(false)`. -/
def relop_invert (op : Nat) : P Nat :=
  if op = OP_EQ_LL then pure OP_NEQ_LL
  else if op = OP_EQ_LN then pure OP_NEQ_LN
  else if op = OP_EQ_LP then pure OP_NEQ_LP
  else if op = OP_NEQ_LL then pure OP_EQ_LL
  else if op = OP_NEQ_LN then pure OP_EQ_LN
  else if op = OP_NEQ_LP then pure OP_EQ_LP
  else if op = OP_LT_LL then pure OP_GE_LL
  else if op = OP_LT_LN then pure OP_GE_LN
  else if op = OP_LE_LL then pure OP_GT_LL
  else if op = OP_LE_LN then pure OP_GT_LN
  else if op = OP_GT_LL then pure OP_LE_LL
  else if op = OP_GT_LN then pure OP_LE_LN
  else if op = OP_GE_LL then pure OP_LT_LL
  else if op = OP_GE_LN then pure OP_LT_LN
  else p_throw .assertFail

/-- `binop_opcode`: the base (`_LL`) opcode of a binary operator; the
default case is `assert(false)`. -/
def binop_opcode (t : Nat) : P Nat :=
  if t = '+'.toNat then pure OP_ADD_LL
  else if t = '-'.toNat then pure OP_SUB_LL
  else if t = '*'.toNat then pure OP_MUL_LL
  else if t = '/'.toNat then pure OP_DIV_LL
  else if t = TK_EQ then pure OP_EQ_LL
  else if t = TK_NEQ then pure OP_NEQ_LL
  else if t = '>'.toNat then pure OP_GT_LL
  else if t = TK_GE then pure OP_GE_LL
  else if t = '<'.toNat then pure OP_LT_LL
  else if t = TK_LE then pure OP_LE_LL
  else p_throw .assertFail

/-! #### Jump lists (src/vm/parser.c lines 381-528)

The pure operations act on a function's instruction list; the `m_`-prefixed
wrappers apply them to the current function. -/

/-- `jmp_follow` (src/vm/parser.c lines 381-417): the absolute target of a
JMP: `jmp_idx + ins_arg24(*jmp) - JMP_BIAS + 1`; negative indices are
returned unchanged. -/
def jmp_follow (l : List Nat) (jmp_idx : Int) : Int :=
  if jmp_idx < 0 then jmp_idx
  else jmp_idx + (ins_arg24 (l.getD jmp_idx.toNat 0) : Int) - (JMP_BIAS : Int) + 1

/-- `jmp_set_target` (src/vm/parser.c lines 420-426): store the biased
offset `target - jmp_idx + JMP_BIAS - 1` (cast through `uint32_t`) into the
instruction's 24-bit argument. -/
def jmp_set_target (l : List Nat) (jmp_idx target : Int) : List Nat :=
  let offset : Int := target - jmp_idx + (JMP_BIAS : Int) - 1
  l.set jmp_idx.toNat
    (ins_set_arg24 (l.getD jmp_idx.toNat 0) (offset % (2 ^ 32 : Int)).toNat)

/-- `jmp_list_patch` (src/vm/parser.c lines 428-444): walk the list, setting
every entry's target; the next link is read before the entry is
overwritten.  The C recursion is unbounded; the fuel is an upper bound on
the walk (any fuel at least the list length reproduces the C behaviour on a
well-formed list). -/
def jmp_list_patch : Nat → List Nat → Int → Int → List Nat
  | 0, l, _, _ => l
  | fuel + 1, l, head_idx, target_idx =>
    if head_idx < 0 then l
    else if jmp_follow l head_idx = -1 then jmp_set_target l head_idx target_idx
    else
      let next_idx := jmp_follow l head_idx
      jmp_list_patch fuel (jmp_set_target l head_idx target_idx) next_idx target_idx

/-- `jmp_list_append` (src/vm/parser.c lines 447-459): prepend a JMP to the
list; returns the new head and the updated instructions. -/
def jmp_list_append (l : List Nat) (head to_add : Int) : Int × List Nat :=
  if head = -1 then (to_add, jmp_set_target l to_add (-1))
  else (to_add, jmp_set_target l to_add head)

/-- The `while (jmp_follow(psr, last) != -1)` walk of `jmp_list_merge`. -/
def jmp_last : Nat → List Nat → Int → Int
  | 0, _, idx => idx
  | fuel + 1, l, idx =>
    if jmp_follow l idx = -1 then idx else jmp_last fuel l (jmp_follow l idx)

/-- `jmp_list_merge` (src/vm/parser.c lines 463-482): point the last element
of `right` at `left`; the merged head is `right`. -/
def jmp_list_merge (fuel : Nat) (l : List Nat) (left right : Int) : Int × List Nat :=
  if right = -1 then (left, l)
  else if left = -1 then (right, l)
  else (right, jmp_set_target l (jmp_last fuel l right) left)

/-- A well-formed jump list, recorded as the sequence of absolute
instruction indices visited by `jmp_list_patch`: each entry's decoded
target is the next entry, and the last entry's decoded target is `-1` (the
end-of-list marker of parser.c). -/
def isJmpChain (l : List Nat) : List Nat → Bool
  | [] => true
  | [i] => jmp_follow l (i : Int) == -1
  | i :: j :: rest => jmp_follow l (i : Int) == (j : Int) && isJmpChain l (j :: rest)

/-- Retarget every instruction of `is` to `t` (the intended effect of one
`jmp_list_patch` walk, used to state what the walk actually does). -/
def setAll (l : List Nat) (is : List Nat) (t : Int) : List Nat :=
  is.foldl (fun (acc : List Nat) (j : Nat) => jmp_set_target acc (↑j) t) l

/-- `jmp_follow` on the current function. -/
def m_jmp_follow (idx : Int) : P Int := do
  let l ← cur_fn_ins
  pure (jmp_follow l idx)

/-- `jmp_set_target` on the current function. -/
def m_jmp_set_target (idx target : Int) : P Unit := do
  let l ← cur_fn_ins
  set_cur_fn_ins (jmp_set_target l idx target)

/-- `jmp_list_patch` on the current function (the fuel `length + 2` covers
any list threaded through the function). -/
def m_jmp_list_patch (head target : Int) : P Unit := do
  let l ← cur_fn_ins
  set_cur_fn_ins (jmp_list_patch (l.length + 2) l head target)

/-- `jmp_list_append` on the current function. -/
def m_jmp_list_append (head to_add : Int) : P Int := do
  let l ← cur_fn_ins
  let (h, l') := jmp_list_append l head to_add
  set_cur_fn_ins l'
  pure h

/-- `jmp_list_merge` on the current function. -/
def m_jmp_list_merge (left right : Int) : P Int := do
  let l ← cur_fn_ins
  let (h, l') := jmp_list_merge (l.length + 2) l left right
  set_cur_fn_ins l'
  pure h

/-- `jmp_ensure_true_falls_through` (src/vm/parser.c lines 488-506): when
the true list comes last, invert the final condition (the instruction just
before the list head) and move that head to the false list.  Only ever
called on `NODE_JMP` nodes. -/
def jmp_ensure_true_falls_through (node : Node) : P Node :=
  match node with
  | .jmp tl fl =>
    if tl > fl then do
      let l ← cur_fn_ins
      let cond := l.getD (tl - 1).toNat 0
      let inverted ← relop_invert (ins_op cond)
      set_cur_fn_ins (l.set (tl - 1).toNat (ins_set_op cond inverted))
      let tmp := tl
      let tl' ← m_jmp_follow tl
      let fl' ← m_jmp_list_append fl tmp
      pure (.jmp tl' fl')
    else pure node
  | _ => pure node

/-- `jmp_ensure_false_falls_through` (src/vm/parser.c lines 510-528): the
mirror image. -/
def jmp_ensure_false_falls_through (node : Node) : P Node :=
  match node with
  | .jmp tl fl =>
    if fl > tl then do
      let l ← cur_fn_ins
      let cond := l.getD (fl - 1).toNat 0
      let inverted ← relop_invert (ins_op cond)
      set_cur_fn_ins (l.set (fl - 1).toNat (ins_set_op cond inverted))
      let tmp := fl
      let fl' ← m_jmp_follow fl
      let tl' ← m_jmp_list_append tl tmp
      pure (.jmp tl' fl')
    else pure node
  | _ => pure node

/-! #### Discharge and operand sinks (src/vm/parser.c lines 530-729) -/

/-- `expr_free_node` (src/vm/parser.c lines 533-547): release the top-most
temporary stack slot; the trailing `assert` checks the freed slot really
was the top of the stack. -/
def expr_free_node (node : Node) : P Unit := do
  let s ← p_get
  let sc ← cur_scope
  let active_locals := s.locals.length - sc.first_local
  match node with
  | .nonReloc slot =>
    if active_locals ≤ slot then do
      set_cur_scope { sc with next_slot := sc.next_slot - 1 }
      if slot = sc.next_slot - 1 then pure () else p_throw .assertFail
    else pure ()
  | _ => pure ()

/-- `expr_discharge` (src/vm/parser.c lines 551-572): intern a literal
number (erroring at the constants-pool limit *before* the dedup lookup),
pin a local to its slot, leave every other state unchanged.  The C calls
`vm_add_const_num`, whose definition is not among the source files; it is
the constants-pool interning function embodied by `vm_add_num` in src/vm.c
(bitwise dedup-or-append), which is used here. -/
def expr_discharge (node : Node) : P Node := do
  match node with
  | .num n =>
    let s ← p_get
    if USHRT_MAX ≤ s.vm.consts.length then
      psr_trigger_err "too many constants"
    else do
      let (idx, consts') := vm_add_num s.vm.consts n
      p_set { s with vm := { s.vm with consts := consts' } }
      pure (.cnst (idx % 2 ^ 16))
  | .loc slot => pure (.nonReloc slot)
  | _ => pure node

/-- `expr_to_slot` (src/vm/parser.c lines 575-631): put a discharged
operand into the given stack slot, emitting the minimal instructions; the
result node is non-relocatable in that slot. -/
def expr_to_slot (dest : Nat) (node : Node) : P Node := do
  let node ← expr_discharge node
  match node with
  | .prim p => do
    let _ ← fn_emit (ins_new2 OP_SET_P dest p)
    pure (.nonReloc dest)
  | .nonReloc slot => do
    if slot ≠ dest then do
      let _ ← fn_emit (ins_new2 OP_MOV dest slot)
      pure (.nonReloc dest)
    else pure (.nonReloc dest)
  | .reloc idx => do
    let l ← cur_fn_ins
    set_cur_fn_ins (l.set idx (ins_set_arg1 (l.getD idx 0) dest))
    pure (.nonReloc dest)
  | .cnst idx => do
    let _ ← fn_emit (ins_new2 OP_SET_N dest idx)
    pure (.nonReloc dest)
  | .jmp _ _ => do
    let node ← jmp_ensure_true_falls_through node
    match node with
    | .jmp tl fl => do
      let tcase ← fn_emit (ins_new2 OP_SET_P dest PRIM_TRUE)
      let _ ← fn_emit (ins_new1 OP_JMP (JMP_BIAS + 1))
      let fcase ← fn_emit (ins_new2 OP_SET_P dest PRIM_FALSE)
      m_jmp_list_patch tl (tcase : Int)
      m_jmp_list_patch fl (fcase : Int)
      pure (.nonReloc dest)
    | _ => p_throw .assertFail
  | _ => p_throw .assertFail

/-- `expr_to_next_slot` (src/vm/parser.c lines 636-656): free a temporary
operand, allocate the next stack slot (erroring past 255 slots) and sink
the operand into it.  Returns the slot and the updated node. -/
def expr_to_next_slot (node : Node) : P (Nat × Node) := do
  let node ← expr_discharge node
  expr_free_node node
  let sc ← cur_scope
  let slot := sc.next_slot
  if 255 ≤ slot then psr_trigger_err "too many locals in function"
  else do
    set_cur_scope { sc with next_slot := sc.next_slot + 1 }
    let node ← expr_to_slot slot node
    pure (slot, node)

/-- `expr_to_any_slot` (src/vm/parser.c lines 662-671): non-relocatables
stay where they are, everything else goes to the next slot. -/
def expr_to_any_slot (node : Node) : P (Nat × Node) := do
  let node ← expr_discharge node
  match node with
  | .nonReloc slot => pure (slot, node)
  | _ => expr_to_next_slot node

/-- `expr_to_ins_arg` (src/vm/parser.c lines 679-694): an 8-bit instruction
argument.  A constant with index ≥ 256 falls through the missing `break`
into the `NODE_NON_RELOC` case and returns the union's `slot` member, i.e.
the low byte of `const_idx`. -/
def expr_to_ins_arg (node : Node) : P (Nat × Node) := do
  let node ← expr_discharge node
  match node with
  | .prim p => pure (p % 2 ^ 8, node)
  | .cnst idx => if idx < 256 then pure (idx, node) else pure (idx % 2 ^ 8, node)
  | .nonReloc slot => pure (slot, node)
  | _ => expr_to_next_slot node

/-- The `NODE_NON_RELOC` arm of `expr_to_jmp`: emit a truthness test
(`EQ_LP slot, PRIM_TRUE`) and an unresolved JMP; the node becomes a JMP
node with a singleton true list. -/
def expr_to_jmp_slot (slot : Nat) : P Node := do
  let _ ← fn_emit (ins_new2 OP_EQ_LP slot PRIM_TRUE)
  let jmp_idx ← fn_emit (ins_new1 OP_JMP 0)
  m_jmp_set_target (jmp_idx : Int) (-1)
  pure (.jmp (jmp_idx : Int) (-1))

/-- `expr_to_jmp` (src/vm/parser.c lines 698-729): relocations, primitives
and constants are first sunk into a slot, then (like non-relocatables)
turned into a jump on their truthness; JMP nodes pass through (and so do
the unreachable pre-discharge states, the C switch's `default: break`). -/
def expr_to_jmp (node : Node) : P Node := do
  let node ← expr_discharge node
  match node with
  | .reloc _ | .prim _ | .cnst _ => do
    let (slot, _) ← expr_to_next_slot node
    expr_to_jmp_slot slot
  | .nonReloc slot => expr_to_jmp_slot slot
  | _ => pure node

/-! #### Constant folding and operator emission (src/vm/parser.c lines 731-1068) -/

/-- The four C `double` arithmetic operations on bit patterns.  None of the
claims proved in this development depends on their values, so the whole
compiler is parameterized over them (IEEE-754 arithmetic is not otherwise
modelled). -/
structure DArith where
  add : Nat → Nat → Nat
  sub : Nat → Nat → Nat
  mul : Nat → Nat → Nat
  div : Nat → Nat → Nat

/-- `expr_fold_arith` (src/vm/parser.c lines 733-747): fold NUM-NUM
arithmetic; `some` is the C's `true` return with the updated left node (a
`binop` outside the switch leaves the number unchanged; unreachable from
the call sites). -/
def expr_fold_arith (da : DArith) (binop : Nat) (left right : Node) : Option Node :=
  match left, right with
  | .num a, .num b =>
    let v :=
      if binop = '+'.toNat then da.add a b
      else if binop = '-'.toNat then da.sub a b
      else if binop = '*'.toNat then da.mul a b
      else if binop = '/'.toNat then da.div a b
      else a
    some (.num v)
  | _, _ => none

/-- `expr_emit_arith` (src/vm/parser.c lines 750-802): reject a primitive
right operand, try the fold, swap a constant left operand of a commutative
operator to the right, lower both operands to instruction arguments, free
temporaries top-down, select the opcode variant
(`base + r_const + 2 * l_const`) and emit a relocatable instruction. -/
def expr_emit_arith (da : DArith) (binop : Nat) (left right : Node) : P Node := do
  if right.isPrim then psr_trigger_err "invalid operand to binary operator"
  else
    match expr_fold_arith da binop left right with
    | some folded => pure folded
    | none => do
      let (l, r) :=
        if binop_is_commutative binop && node_is_const left then (right, left)
        else (left, right)
      let (larg, l) ← expr_to_ins_arg l
      let (rarg, r) ← expr_to_ins_arg r
      if rarg < larg then do
        expr_free_node l
        expr_free_node r
      else do
        expr_free_node r
        expr_free_node l
      let base ← binop_opcode binop
      let opcode := base + (if node_is_const r then 1 else 0) +
        (if node_is_const l then 1 else 0) * 2
      let idx ← fn_emit (ins_new3 opcode 0 larg rarg)
      pure (.reloc idx)

/-- `expr_fold_rel` (src/vm/parser.c lines 806-846): fold a relational
operation on two operands of equal node type.  NUM-NUM compares the doubles
(`some` of a primitive 1/0 result).  In the PRIM-PRIM arm the C switch
cases have no `break`: the `TK_EQ` assignment falls through to the `TK_NEQ`
assignment and control always reaches `default: assert(false)` (commented
"Unreachable"), so every primitive-primitive fold aborts on the
assertion. -/
def expr_fold_rel (binop : Nat) (left right : Node) : P (Option Node) := do
  if Node.tag left ≠ Node.tag right then pure none
  else
    match left, right with
    | .num a, .num b => do
      let result ←
        if binop = TK_EQ then pure (dblEq a b)
        else if binop = TK_NEQ then pure (dblNe a b)
        else if binop = '>'.toNat then pure (dblGt a b)
        else if binop = TK_GE then pure (dblGe a b)
        else if binop = '<'.toNat then pure (dblLt a b)
        else if binop = TK_LE then pure (dblLt a b || dblEq a b)
        else p_throw .assertFail
      pure (some (.prim (if result then 1 else 0)))
    | .prim a, .prim b => do
      let _result := decide (a ≠ b)
      p_throw .assertFail
    | _, _ => pure none

/-- `expr_emit_rel` (src/vm/parser.c lines 849-913): reject a primitive
right operand of an ordering, try the fold, force the constant to the right
(inverting non-commutative operators), lower the operands, free
temporaries, pick the opcode variant by the right operand's node state,
emit the condition and the unresolved JMP; result is a JMP node with a
singleton true list. -/
def expr_emit_rel (binop : Nat) (left right : Node) : P Node := do
  if binop_is_ord binop && right.isPrim then
    psr_trigger_err "invalid operand to binary operator"
  else do
    let fold ← expr_fold_rel binop left right
    match fold with
    | some folded => pure folded
    | none => do
      let (binop, l, r) ←
        if node_is_const left then do
          let binop ←
            if !binop_is_commutative binop then binop_invert_rel binop
            else pure binop
          pure (binop, right, left)
        else pure (binop, left, right)
      let (larg, l) ← expr_to_ins_arg l
      let (rarg, r) ← expr_to_ins_arg r
      if rarg < larg then do
        expr_free_node l
        expr_free_node r
      else do
        expr_free_node r
        expr_free_node l
      let opcode_offset ←
        match r with
        | .nonReloc _ => pure 0
        | .cnst _ => pure 1
        | .prim _ => pure 2
        | _ => p_throw .assertFail
      let base ← binop_opcode binop
      let _ ← fn_emit (ins_new2 (base + opcode_offset) larg rarg)
      let jmp_idx ← fn_emit (ins_new1 OP_JMP 0)
      m_jmp_set_target (jmp_idx : Int) (-1)
      pure (.jmp (jmp_idx : Int) (-1))

/-- `expr_emit_and` (src/vm/parser.c lines 916-935).  Both operands are JMP
nodes here (`expr_emit_binary_left` converted the left one, and `right` has
just been converted). -/
def expr_emit_and (left right : Node) : P Node := do
  let right ← expr_to_jmp right
  let left ← jmp_ensure_true_falls_through left
  match left, right with
  | .jmp ltl lfl, .jmp rtl rfl_list => do
    let target := lfl + 1
    m_jmp_list_patch ltl target
    let fl ← m_jmp_list_merge lfl rfl_list
    pure (.jmp rtl fl)
  | _, _ => p_throw .assertFail

/-- `expr_emit_or` (src/vm/parser.c lines 938-957): the mirror image. -/
def expr_emit_or (left right : Node) : P Node := do
  let right ← expr_to_jmp right
  let left ← jmp_ensure_false_falls_through left
  match left, right with
  | .jmp ltl lfl, .jmp rtl rfl_list => do
    let target := ltl + 1
    m_jmp_list_patch lfl target
    let tl ← m_jmp_list_merge ltl rtl
    pure (.jmp tl rfl_list)
  | _, _ => p_throw .assertFail

/-- `expr_emit_binary` (src/vm/parser.c lines 961-985). -/
def expr_emit_binary (da : DArith) (binop : Nat) (left right : Node) : P Node :=
  if binop_is_arith binop then expr_emit_arith da binop left right
  else if binop_is_rel binop then expr_emit_rel binop left right
  else if binop = TK_AND then expr_emit_and left right
  else if binop = TK_OR then expr_emit_or left right
  else p_throw .assertFail

/-- `expr_emit_binary_left` (src/vm/parser.c lines 989-1020): what to do
with the left operand before the right one is parsed (the if-chain is the
C's nested one flattened; the non-returning paths fall through to
`expr_to_ins_arg`). -/
def expr_emit_binary_left (binop : Nat) (left : Node) : P Node := do
  if binop_is_arith binop ∧ left.isNum then pure left
  else if binop_is_arith binop ∧ left.isPrim then
    psr_trigger_err "invalid operand to binary operator"
  else if binop_is_rel binop ∧ left.isNum then pure left
  else if binop_is_rel binop ∧ left.isPrim then
    psr_trigger_err "invalid operand to binary operator"
  else if binop = TK_AND ∨ binop = TK_OR then expr_to_jmp left
  else do
    let (_, left) ← expr_to_ins_arg left
    pure left

/-- `expr_emit_neg` (src/vm/parser.c lines 1023-1048): fold a NUM (keeping
it in pre-discharge form), reject a primitive, otherwise negate through a
slot and produce a relocatable instruction. -/
def expr_emit_neg (operand : Node) : P Node := do
  match operand with
  | .num n => pure (.num (dblNeg n))
  | .prim _ => psr_trigger_err "invalid operand to unary operator"
  | _ => do
    let (slot, operand) ← expr_to_any_slot operand
    expr_free_node operand
    let idx ← fn_emit (ins_new2 OP_NEG 0 slot)
    pure (.reloc idx)

/-- `expr_emit_not` (src/vm/parser.c lines 1051-1059): convert to a JMP and
swap the two jump lists (no instruction is emitted). -/
def expr_emit_not (operand : Node) : P Node := do
  let operand ← expr_to_jmp operand
  match operand with
  | .jmp tl fl => pure (.jmp fl tl)
  | _ => p_throw .assertFail

/-- `expr_emit_unary` (src/vm/parser.c lines 1063-1069). -/
def expr_emit_unary (unop : Nat) (operand : Node) : P Node :=
  if unop = '-'.toNat then expr_emit_neg operand
  else if unop = '!'.toNat then expr_emit_not operand
  else p_throw .assertFail

/-! #### Operands and expressions (src/vm/parser.c lines 1071-1194) -/

/-- `expr_operand_num` (src/vm/parser.c lines 1072-1078). -/
def expr_operand_num : P Node := do
  let s ← p_get
  let operand := Node.num s.lxr.tk.num
  p_lex_next
  pure operand

/-- The name-lookup loop shared by `expr_operand_local` and `parse_assign`:
the slot of the first local named `name` in the current function's window
of the locals list, or -1. -/
def find_local_slot (locals : List Nat) (first_local name : Nat) : Int :=
  match (locals.drop first_local).findIdx? (· = name) with
  | some i => (i : Int)
  | none => -1

/-- `expr_operand_local` (src/vm/parser.c lines 1081-1103). -/
def expr_operand_local : P Node := do
  let s ← p_get
  let sc ← cur_scope
  let slot := find_local_slot s.locals sc.first_local s.lxr.tk.ident_hash
  if slot = -1 then psr_trigger_err "variable not defined"
  else do
    p_lex_next
    pure (.loc slot.toNat)

/-- `expr_operand_prim` (src/vm/parser.c lines 1120-1126): the primitive
value is `tk.type - TK_FALSE` (FALSE 0, TRUE 1, NIL 2). -/
def expr_operand_prim : P Node := do
  let s ← p_get
  let node := Node.prim (s.lxr.tk.type - TK_FALSE)
  p_lex_next
  pure node

/-! `parse_subexpr` and its callees (src/vm/parser.c lines 1105-1189),
mutually recursive through subexpressions; the fuel bounds the recursion
depth and every theorem below supplies enough of it. -/
mutual

/-- `parse_subexpr` (src/vm/parser.c lines 1165-1189). -/
def parse_subexpr (da : DArith) : Nat → Int → P Node
  | 0, _ => p_throw .outOfFuel
  | fuel + 1, minimum => do
    let left ← expr_unary da fuel
    parse_subexpr_loop da fuel minimum left

/-- The `while (binop_prec(...) > (int) minimum)` loop of `parse_subexpr`. -/
def parse_subexpr_loop (da : DArith) : Nat → Int → Node → P Node
  | 0, _, _ => p_throw .outOfFuel
  | fuel + 1, minimum, left => do
    let s ← p_get
    if binop_prec s.lxr.tk.type ≤ minimum then pure left
    else do
      let binop := s.lxr.tk.type
      p_lex_next
      let left ← expr_emit_binary_left binop left
      let right ← parse_subexpr da fuel (binop_prec binop)
      let left ← expr_emit_binary da binop left right
      parse_subexpr_loop da fuel minimum left

/-- `expr_unary` (src/vm/parser.c lines 1144-1161). -/
def expr_unary (da : DArith) : Nat → P Node
  | 0 => p_throw .outOfFuel
  | fuel + 1 => do
    let s ← p_get
    if 0 ≤ unop_prec s.lxr.tk.type then do
      let unop := s.lxr.tk.type
      p_lex_next
      let operand ← parse_subexpr da fuel (unop_prec unop)
      expr_emit_unary unop operand
    else expr_operand da fuel

/-- `expr_operand` (src/vm/parser.c lines 1129-1141). -/
def expr_operand (da : DArith) : Nat → P Node
  | 0 => p_throw .outOfFuel
  | fuel + 1 => do
    let s ← p_get
    let t := s.lxr.tk.type
    if t = TK_NUM then expr_operand_num
    else if t = TK_IDENT then expr_operand_local
    else if t = '('.toNat then expr_operand_subexpr da fuel
    else if t = TK_TRUE ∨ t = TK_FALSE ∨ t = TK_NIL then expr_operand_prim
    else psr_trigger_err "expected expression"

/-- `expr_operand_subexpr` (src/vm/parser.c lines 1106-1117). -/
def expr_operand_subexpr (da : DArith) : Nat → P Node
  | 0 => p_throw .outOfFuel
  | fuel + 1 => do
    p_lex_next
    let subexpr ← parse_subexpr da fuel 0
    p_lex_expect ')'.toNat
    p_lex_next
    pure subexpr

end

/-- `parse_expr` (src/vm/parser.c lines 1192-1194): a subexpression at
PREC_NONE. -/
def parse_expr (da : DArith) (fuel : Nat) : P Node :=
  parse_subexpr da fuel 0

/-! #### Statements (src/vm/parser.c lines 1196-1536) -/

/-- `parse_assign` (src/vm/parser.c lines 1200-1247): plain or augmented
assignment to an existing local. -/
def parse_assign (da : DArith) (fuel : Nat) : P Unit := do
  let s ← p_get
  let name := s.lxr.tk.ident_hash
  p_lex_next
  let s ← p_get
  let sc ← cur_scope
  let dest := find_local_slot s.locals sc.first_local name
  if dest = -1 then psr_trigger_err "variable not defined"
  else do
    let s ← p_get
    let t := s.lxr.tk.type
    let augmented : Nat :=
      if t = TK_ADD_ASSIGN then '+'.toNat
      else if t = TK_SUB_ASSIGN then '-'.toNat
      else if t = TK_MUL_ASSIGN then '*'.toNat
      else if t = TK_DIV_ASSIGN then '/'.toNat
      else 0
    p_lex_next
    let result ← parse_expr da fuel
    if augmented ≠ 0 then do
      let dest_node := Node.nonReloc dest.toNat
      let dest_node ← expr_emit_arith da augmented dest_node result
      let _ ← expr_to_slot dest.toNat dest_node
      pure ()
    else do
      let _ ← expr_to_slot dest.toNat result
      pure ()

/-- `parse_assign_or_expr` (src/vm/parser.c lines 1251-1265): look one
token past the identifier, restore, and choose. -/
def parse_assign_or_expr (da : DArith) (fuel : Nat) : P Unit := do
  let s ← p_get
  let saved := lex_save s.lxr
  p_lex_next
  let s ← p_get
  let after := s.lxr.tk.type
  p_set { s with lxr := lex_restore s.lxr saved }
  if after = '='.toNat ∨ (TK_ADD_ASSIGN ≤ after ∧ after ≤ TK_MOD_ASSIGN) then
    parse_assign da fuel
  else do
    let _ ← parse_expr da fuel
    pure ()

/-- `parse_let` (src/vm/parser.c lines 1268-1295). -/
def parse_let (da : DArith) (fuel : Nat) : P Unit := do
  p_lex_next
  p_lex_expect TK_IDENT
  let s ← p_get
  let name := s.lxr.tk.ident_hash
  let sc ← cur_scope
  if (s.locals.drop sc.first_local).contains name then
    psr_trigger_err "variable already defined"
  else do
    p_lex_next
    p_lex_expect '='.toNat
    p_lex_next
    let result ← parse_expr da fuel
    let _ ← expr_to_next_slot result
    psr_new_local name

/-- The formal-argument loop of `parse_fn` (src/vm/parser.c lines
1427-1441). -/
def parse_fn_args : Nat → P Unit
  | 0 => p_throw .outOfFuel
  | fuel + 1 => do
    let s ← p_get
    if s.lxr.tk.type = TK_IDENT then do
      psr_new_local s.lxr.tk.ident_hash
      let sc ← cur_scope
      set_cur_scope { sc with next_slot := sc.next_slot + 1 }
      p_lex_next
      let s ← p_get
      if s.lxr.tk.type ≠ ','.toNat then pure ()
      else do
        p_lex_next
        parse_fn_args fuel
    else pure ()

mutual

/-- `parse_block` (src/vm/parser.c lines 1469-1497): parse statements until
none matches, then discard the block's locals and slots. -/
def parse_block (da : DArith) : Nat → P Unit
  | 0 => p_throw .outOfFuel
  | fuel + 1 => do
    let s ← p_get
    let sc ← cur_scope
    let locals_count := s.locals.length
    let next_slot := sc.next_slot
    parse_block_loop da fuel
    let s ← p_get
    p_set { s with locals := s.locals.take locals_count }
    let sc ← cur_scope
    set_cur_scope { sc with next_slot := next_slot }

/-- The statement loop of `parse_block`. -/
def parse_block_loop (da : DArith) : Nat → P Unit
  | 0 => p_throw .outOfFuel
  | fuel + 1 => do
    let s ← p_get
    let t := s.lxr.tk.type
    if t = TK_LET then do
      parse_let da fuel
      parse_block_loop da fuel
    else if t = TK_IDENT then do
      parse_assign_or_expr da fuel
      parse_block_loop da fuel
    else if t = '('.toNat then do
      let _ ← parse_expr da fuel
      parse_block_loop da fuel
    else if t = TK_IF then do
      parse_if da fuel
      parse_block_loop da fuel
    else if t = TK_LOOP then do
      parse_loop da fuel
      parse_block_loop da fuel
    else if t = TK_WHILE then do
      parse_while da fuel
      parse_block_loop da fuel
    else if t = TK_FN then do
      parse_fn da fuel
      parse_block_loop da fuel
    else pure ()

/-- `parse_if` (src/vm/parser.c lines 1298-1351): the if/elseif clause loop,
an optional else, then patch the end-of-body jumps here. -/
def parse_if (da : DArith) : Nat → P Unit
  | 0 => p_throw .outOfFuel
  | fuel + 1 => do
    let jmp_head ← parse_if_clauses da fuel (-1)
    let s ← p_get
    if s.lxr.tk.type = TK_ELSE then do
      p_lex_next
      p_lex_expect '{'.toNat
      p_lex_next
      parse_block da fuel
      p_lex_expect '}'.toNat
      p_lex_next
    else pure ()
    let cnt ← cur_ins_count
    m_jmp_list_patch jmp_head (cnt : Int)

/-- One iteration of the do-while over if/elseif clauses in `parse_if`. -/
def parse_if_clauses (da : DArith) : Nat → Int → P Int
  | 0, _ => p_throw .outOfFuel
  | fuel + 1, jmp_head => do
    p_lex_next
    let condition ← parse_expr da fuel
    let condition ← expr_to_jmp condition
    let condition ← jmp_ensure_true_falls_through condition
    match condition with
    | .jmp tl fl => do
      let true_case ← cur_ins_count
      m_jmp_list_patch tl (true_case : Int)
      p_lex_expect '{'.toNat
      p_lex_next
      parse_block da fuel
      p_lex_expect '}'.toNat
      p_lex_next
      let s ← p_get
      let jmp_head ←
        if s.lxr.tk.type = TK_ELSEIF ∨ s.lxr.tk.type = TK_ELSE then do
          let jmp_idx ← fn_emit (ins_new1 OP_JMP 0)
          m_jmp_list_append jmp_head (jmp_idx : Int)
        else pure jmp_head
      let false_case ← cur_ins_count
      m_jmp_list_patch fl (false_case : Int)
      let s ← p_get
      if s.lxr.tk.type = TK_ELSEIF then parse_if_clauses da fuel jmp_head
      else pure jmp_head
    | _ => p_throw .assertFail

/-- `parse_loop` (src/vm/parser.c lines 1354-1371): body, then an
unconditional backwards jump to the start. -/
def parse_loop (da : DArith) : Nat → P Unit
  | 0 => p_throw .outOfFuel
  | fuel + 1 => do
    p_lex_next
    let start ← cur_ins_count
    p_lex_expect '{'.toNat
    p_lex_next
    parse_block da fuel
    p_lex_expect '}'.toNat
    p_lex_next
    let jmp_idx ← fn_emit (ins_new1 OP_JMP 0)
    m_jmp_set_target (jmp_idx : Int) (start : Int)

/-- `parse_while` (src/vm/parser.c lines 1374-1404): condition as a JMP with
the true case falling through, body, an unconditional backwards `OP_JMP` to
the start (this parser's instruction set has no LOOP opcode), then patch
the false case to after the loop. -/
def parse_while (da : DArith) : Nat → P Unit
  | 0 => p_throw .outOfFuel
  | fuel + 1 => do
    p_lex_next
    let start ← cur_ins_count
    let condition ← parse_expr da fuel
    let condition ← expr_to_jmp condition
    let condition ← jmp_ensure_true_falls_through condition
    match condition with
    | .jmp tl fl => do
      let true_case ← cur_ins_count
      m_jmp_list_patch tl (true_case : Int)
      p_lex_expect '{'.toNat
      p_lex_next
      parse_block da fuel
      p_lex_expect '}'.toNat
      p_lex_next
      let jmp_idx ← fn_emit (ins_new1 OP_JMP 0)
      m_jmp_set_target (jmp_idx : Int) (start : Int)
      let false_case ← cur_ins_count
      m_jmp_list_patch fl (false_case : Int)
    | _ => p_throw .assertFail

/-- `parse_fn` (src/vm/parser.c lines 1407-1466): new function and scope,
formals as locals, body, terminal RET, pop the scope and bind the function
to a new local in the outer scope with SET_F. -/
def parse_fn (da : DArith) : Nat → P Unit
  | 0 => p_throw .outOfFuel
  | fuel + 1 => do
    p_lex_next
    p_lex_expect TK_IDENT
    let s ← p_get
    let fn_name := s.lxr.tk.ident_hash
    p_lex_next
    let fn_idx ← m_vm_new_fn
    let s ← p_get
    p_set { s with scopes :=
      { fn := fn_idx, first_local := s.locals.length, next_slot := 0 } :: s.scopes }
    p_lex_expect '('.toNat
    p_lex_next
    parse_fn_args fuel
    p_lex_expect ')'.toNat
    p_lex_next
    p_lex_expect '{'.toNat
    p_lex_next
    parse_block da fuel
    p_lex_expect '}'.toNat
    p_lex_next
    let _ ← fn_emit (ins_new3 OP_RET 0 0 0)
    let sc ← cur_scope
    let s ← p_get
    p_set { s with locals := s.locals.take sc.first_local, scopes := s.scopes.drop 1 }
    psr_new_local fn_name
    let outer ← cur_scope
    set_cur_scope { outer with next_slot := outer.next_slot + 1 }
    let _ ← fn_emit (ins_new2 OP_SET_F outer.next_slot fn_idx)
    pure ()

end

/-- `parse_code` (src/vm/parser.c lines 1500-1520): first token, the
package's main-function scope, the top-level block, a final RET. -/
def parse_code (da : DArith) (fuel : Nat) : P Unit := do
  p_lex_next
  let s ← p_get
  let top : FnScope :=
    { fn := (s.vm.pkgs.getD s.pkg { name := 0, main_fn := 0 }).main_fn,
      first_local := 0, next_slot := 0 }
  p_set { s with scopes := [top] }
  parse_block da fuel
  let _ ← fn_emit (ins_new3 OP_RET 0 0 0)
  pure ()

/-- `parse` (src/vm/parser.c lines 1525-1536): run `parse_code` under the
error guard; on success the grown VM is returned, on error the first
error. -/
def parse (da : DArith) (fuel : Nat) (vm : VM) (pkg : Nat) (code : List Char) :
    Except PErr VM :=
  let psr : Parser :=
    { vm := vm, lxr := lex_new code, pkg := pkg, scopes := [], locals := [] }
  match parse_code da fuel psr with
  | .ok (_, p) => .ok p.vm
  | .error e => .error e

/-! ### The compilation of `let a = 0  while a < 100 { a += 1 }`

The intermediate parser states of that compilation (the source of the
spec's `while` example), taken at statement granularity so that each
single step evaluates from a fully literal state.  Token type numbers:
268 `TK_LET`, 273 `TK_WHILE`, 276 `TK_IDENT`, 281 `TK_EOF`, 123 is `{`
and 125 is `}`; 97 is the hash of the one-letter name `a`; the Value
4636737291354636288 is the bit pattern of 100.0 and 4607182418800017408
of 1.0. -/

/-- The example source of the `while` claim. -/
def srcC2 : List Char := "let a = 0  while a < 100 { a += 1 }".data

/-- The initial state: a fresh VM holding one package (name hash 7) and its
empty main function. -/
def psrC2_0 : Parser :=
  { vm := { pkgs := [{ name := 7, main_fn := 0 }], fns := [{ pkg := 0, ins := [] }],
            consts := [] },
    lxr := lex_new srcC2, pkg := 0, scopes := [], locals := [] }

/-- After the first `lex_next` of `parse_code`: on `let`. -/
def psrC2_1 : Parser :=
  { vm := { pkgs := [{ name := 7, main_fn := 0 }], fns := [{ pkg := 0, ins := [] }],
            consts := [] },
    lxr := { code := srcC2, cursor := 3, line := 1,
             tk := { type := 268, start := 0, length := 3, line := 1, num := 0, ident_hash := 0 } },
    pkg := 0, scopes := [], locals := [] }

/-- After `parse_code` pushes the main function's scope. -/
def psrC2_2 : Parser :=
  { vm := { pkgs := [{ name := 7, main_fn := 0 }], fns := [{ pkg := 0, ins := [] }],
            consts := [] },
    lxr := { code := srcC2, cursor := 3, line := 1,
             tk := { type := 268, start := 0, length := 3, line := 1, num := 0, ident_hash := 0 } },
    pkg := 0, scopes := [{ fn := 0, first_local := 0, next_slot := 0 }], locals := [] }

/-- After `let a = 0`: `SET_N 0 0` emitted, constant 0 interned, local `a`
in slot 0, on `while`. -/
def psrC2_let : Parser :=
  { vm := { pkgs := [{ name := 7, main_fn := 0 }], fns := [{ pkg := 0, ins := [1] }],
            consts := [0] },
    lxr := { code := srcC2, cursor := 16, line := 1,
             tk := { type := 273, start := 11, length := 5, line := 1, num := 0, ident_hash := 0 } },
    pkg := 0, scopes := [{ fn := 0, first_local := 0, next_slot := 1 }], locals := [97] }

/-- Inside `parse_while`, past the `while` token: on the condition's `a`. -/
def psrC2_w1 : Parser :=
  { vm := { pkgs := [{ name := 7, main_fn := 0 }], fns := [{ pkg := 0, ins := [1] }],
            consts := [0] },
    lxr := { code := srcC2, cursor := 18, line := 1,
             tk := { type := 276, start := 17, length := 1, line := 1, num := 0, ident_hash := 97 } },
    pkg := 0, scopes := [{ fn := 0, first_local := 0, next_slot := 1 }], locals := [97] }

/-- After parsing the condition `a < 100`: `LT_LN 0 1` (65558) and a JMP
placeholder emitted, 100.0 interned, on `\x7b`. -/
def psrC2_w2 : Parser :=
  { vm := { pkgs := [{ name := 7, main_fn := 0 }],
            fns := [{ pkg := 0, ins := [1, 65558, 2147482653] }],
            consts := [0, 4636737291354636288] },
    lxr := { code := srcC2, cursor := 26, line := 1,
             tk := { type := 123, start := 25, length := 1, line := 1, num := 0, ident_hash := 0 } },
    pkg := 0, scopes := [{ fn := 0, first_local := 0, next_slot := 1 }], locals := [97] }

/-- After `jmp_ensure_true_falls_through` inverts the condition: `LT_LN`
became `GE_LN 0 1` (65564). -/
def psrC2_w4 : Parser :=
  { vm := { pkgs := [{ name := 7, main_fn := 0 }],
            fns := [{ pkg := 0, ins := [1, 65564, 2147482653] }],
            consts := [0, 4636737291354636288] },
    lxr := { code := srcC2, cursor := 26, line := 1,
             tk := { type := 123, start := 25, length := 1, line := 1, num := 0, ident_hash := 0 } },
    pkg := 0, scopes := [{ fn := 0, first_local := 0, next_slot := 1 }], locals := [97] }

/-- Past the body's `\x7b`: on the body's `a`. -/
def psrC2_w6 : Parser :=
  { vm := { pkgs := [{ name := 7, main_fn := 0 }],
            fns := [{ pkg := 0, ins := [1, 65564, 2147482653] }],
            consts := [0, 4636737291354636288] },
    lxr := { code := srcC2, cursor := 28, line := 1,
             tk := { type := 276, start := 27, length := 1, line := 1, num := 0, ident_hash := 97 } },
    pkg := 0, scopes := [{ fn := 0, first_local := 0, next_slot := 1 }], locals := [97] }

/-- After the body `a += 1`: `ADD_LN 0 0 2` (33554437) emitted, 1.0
interned, on `\x7d`. -/
def psrC2_w7 : Parser :=
  { vm := { pkgs := [{ name := 7, main_fn := 0 }],
            fns := [{ pkg := 0, ins := [1, 65564, 2147482653, 33554437] }],
            consts := [0, 4636737291354636288, 4607182418800017408] },
    lxr := { code := srcC2, cursor := 35, line := 1,
             tk := { type := 125, start := 34, length := 1, line := 1, num := 0, ident_hash := 0 } },
    pkg := 0, scopes := [{ fn := 0, first_local := 0, next_slot := 1 }], locals := [97] }

/-- Past the closing `\x7d`: at end of input. -/
def psrC2_w8 : Parser :=
  { vm := { pkgs := [{ name := 7, main_fn := 0 }],
            fns := [{ pkg := 0, ins := [1, 65564, 2147482653, 33554437] }],
            consts := [0, 4636737291354636288, 4607182418800017408] },
    lxr := { code := srcC2, cursor := 35, line := 1,
             tk := { type := 281, start := 35, length := 0, line := 1, num := 0, ident_hash := 0 } },
    pkg := 0, scopes := [{ fn := 0, first_local := 0, next_slot := 1 }], locals := [97] }

/-- After emitting the raw backwards `OP_JMP` placeholder (word 29). -/
def psrC2_w9 : Parser :=
  { vm := { pkgs := [{ name := 7, main_fn := 0 }],
            fns := [{ pkg := 0, ins := [1, 65564, 2147482653, 33554437, 29] }],
            consts := [0, 4636737291354636288, 4607182418800017408] },
    lxr := { code := srcC2, cursor := 35, line := 1,
             tk := { type := 281, start := 35, length := 0, line := 1, num := 0, ident_hash := 0 } },
    pkg := 0, scopes := [{ fn := 0, first_local := 0, next_slot := 1 }], locals := [97] }

/-- After targeting the backwards jump at the condition (index 1): word
2147482653 = `OP_JMP` with biased offset `JMP_BIAS - 4`. -/
def psrC2_w10 : Parser :=
  { vm := { pkgs := [{ name := 7, main_fn := 0 }],
            fns := [{ pkg := 0, ins := [1, 65564, 2147482653, 33554437, 2147482653] }],
            consts := [0, 4636737291354636288, 4607182418800017408] },
    lxr := { code := srcC2, cursor := 35, line := 1,
             tk := { type := 281, start := 35, length := 0, line := 1, num := 0, ident_hash := 0 } },
    pkg := 0, scopes := [{ fn := 0, first_local := 0, next_slot := 1 }], locals := [97] }

/-- After patching the false case to index 5 (after the loop): the
condition's JMP is 2147484189 = `OP_JMP` with offset `JMP_BIAS + 2`. -/
def psrC2_w : Parser :=
  { vm := { pkgs := [{ name := 7, main_fn := 0 }],
            fns := [{ pkg := 0, ins := [1, 65564, 2147484189, 33554437, 2147482653] }],
            consts := [0, 4636737291354636288, 4607182418800017408] },
    lxr := { code := srcC2, cursor := 35, line := 1,
             tk := { type := 281, start := 35, length := 0, line := 1, num := 0, ident_hash := 0 } },
    pkg := 0, scopes := [{ fn := 0, first_local := 0, next_slot := 1 }], locals := [97] }

/-- After `parse_block` pops the top-level block's locals and slots. -/
def psrC2_b2 : Parser :=
  { vm := { pkgs := [{ name := 7, main_fn := 0 }],
            fns := [{ pkg := 0, ins := [1, 65564, 2147484189, 33554437, 2147482653] }],
            consts := [0, 4636737291354636288, 4607182418800017408] },
    lxr := { code := srcC2, cursor := 35, line := 1,
             tk := { type := 281, start := 35, length := 0, line := 1, num := 0, ident_hash := 0 } },
    pkg := 0, scopes := [{ fn := 0, first_local := 0, next_slot := 0 }], locals := [] }

/-- After `parse_code` emits the terminal `RET` (31): the final state. -/
def psrC2_fin : Parser :=
  { vm := { pkgs := [{ name := 7, main_fn := 0 }],
            fns := [{ pkg := 0, ins := [1, 65564, 2147484189, 33554437, 2147482653, 31] }],
            consts := [0, 4636737291354636288, 4607182418800017408] },
    lxr := { code := srcC2, cursor := 35, line := 1,
             tk := { type := 281, start := 35, length := 0, line := 1, num := 0, ident_hash := 0 } },
    pkg := 0, scopes := [{ fn := 0, first_local := 0, next_slot := 0 }], locals := [] }

/-! ## Theorems

General helper lemmas first, then one theorem per claim (with its witness or
counterexample where required). -/

/-- Unfold one monadic bind of the parser monad on a known-successful step. -/
theorem P.bind_ok {α β : Type} {m : P α} {f : α → P β} {s s' : Parser} {a : α}
    (h : m s = .ok (a, s')) : (m >>= f) s = f a s' := by
  have e : (m >>= f) s =
      match m s with
      | .error e => .error e
      | .ok (a, s') => f a s' := rfl
  rw [e, h]

/-- On non-NaN patterns, the C `>=` is the negation of `<`. -/
theorem dblGe_eq_not_lt {a b : Nat} (ha : dblIsNaN a = false) (hb : dblIsNaN b = false) :
    dblGe a b = !dblLt a b := by
  simp only [dblGe, dblLe, dblLt, ha, hb, Bool.not_false, Bool.true_and]
  rw [← decide_not, decide_eq_decide]
  exact not_lt.symm

/-- On non-NaN patterns, the C `>` is the negation of `<=`. -/
theorem dblGt_eq_not_le {a b : Nat} (ha : dblIsNaN a = false) (hb : dblIsNaN b = false) :
    dblGt a b = !dblLe a b := by
  simp only [dblGt, dblLe, dblLt, ha, hb, Bool.not_false, Bool.true_and]
  rw [← decide_not, decide_eq_decide]
  exact not_le.symm

/-- On non-NaN patterns, the C `<=` is the negation of `>`. -/
theorem dblLe_eq_not_gt {a b : Nat} (ha : dblIsNaN a = false) (hb : dblIsNaN b = false) :
    dblLe a b = !dblGt a b := by
  rw [dblGt_eq_not_le ha hb, Bool.not_not]

/-- On non-NaN patterns, the C `<` is the negation of `>=`. -/
theorem dblLt_eq_not_ge {a b : Nat} (ha : dblIsNaN a = false) (hb : dblIsNaN b = false) :
    dblLt a b = !dblGe a b := by
  rw [dblGe_eq_not_lt ha hb, Bool.not_not]

/-- The interpreter skips when condition `c` holds; if `c` is the negation
of the named relation `n`, this is falling through exactly when `n`
holds. -/
theorem skip_flip {c n : Bool} (hcn : c = !n) (ip : Nat) :
    (if c = true then ip + 2 else ip + 1) = if n = true then ip + 1 else ip + 2 := by
  subst hcn; cases n <;> simp

/-- C1, amended.  For every relational bytecode instruction executed by the
interpreter (with, for the ordering variants, neither operand's bit pattern
a NaN): if the relation named by the opcode HOLDS between the two operands,
execution falls through to the immediately following instruction (the
paired JMP, which is thereby taken); if the relation FAILS, the instruction
pointer skips that following instruction.  Equality variants compare the
two 64-bit Values bitwise; ordering variants compare the operands unpacked
as IEEE doubles.  No stack slot is written.  (The original claim has the
skip direction inverted: vm.c deliberately inverts each condition so that
the JMP is taken exactly when the source-level condition is true.) -/
theorem C1_rel_step_direction (w : Nat) (k stk : List Nat) (ip : Nat)
    (hrel : ins_op w ∈ relOpcodes)
    (hnan : isOrdOpcode (ins_op w) = true →
      dblIsNaN (stk.getD (ins_arg1 w) 0) = false ∧ dblIsNaN (relRhs k stk w) = false) :
    vm_step_rel k stk w ip =
      some (stk,
        if relNamed (ins_op w) (stk.getD (ins_arg1 w) 0) (relRhs k stk w) then ip + 1
        else ip + 2) := by
  simp only [relOpcodes, List.mem_cons, List.not_mem_nil, or_false] at hrel
  rcases hrel with h | h | h | h | h | h | h | h | h | h | h | h | h | h
  · simp only [vm_step_rel, relNamed, relRhs, h]
    norm_num [BC_EQ_LL, BC_EQ_LN, BC_EQ_LP, BC_NEQ_LL, BC_NEQ_LN, BC_NEQ_LP,
      BC_LT_LL, BC_LT_LN, BC_LE_LL, BC_LE_LN, BC_GT_LL, BC_GT_LN, BC_GE_LL, BC_GE_LN]
  · simp only [vm_step_rel, relNamed, relRhs, h]
    norm_num [BC_EQ_LL, BC_EQ_LN, BC_EQ_LP, BC_NEQ_LL, BC_NEQ_LN, BC_NEQ_LP,
      BC_LT_LL, BC_LT_LN, BC_LE_LL, BC_LE_LN, BC_GT_LL, BC_GT_LN, BC_GE_LL, BC_GE_LN]
  · simp only [vm_step_rel, relNamed, relRhs, h]
    norm_num [BC_EQ_LL, BC_EQ_LN, BC_EQ_LP, BC_NEQ_LL, BC_NEQ_LN, BC_NEQ_LP,
      BC_LT_LL, BC_LT_LN, BC_LE_LL, BC_LE_LN, BC_GT_LL, BC_GT_LN, BC_GE_LL, BC_GE_LN]
  · simp only [vm_step_rel, relNamed, relRhs, h]
    norm_num [BC_EQ_LL, BC_EQ_LN, BC_EQ_LP, BC_NEQ_LL, BC_NEQ_LN, BC_NEQ_LP,
      BC_LT_LL, BC_LT_LN, BC_LE_LL, BC_LE_LN, BC_GT_LL, BC_GT_LN, BC_GE_LL, BC_GE_LN]
  · simp only [vm_step_rel, relNamed, relRhs, h]
    norm_num [BC_EQ_LL, BC_EQ_LN, BC_EQ_LP, BC_NEQ_LL, BC_NEQ_LN, BC_NEQ_LP,
      BC_LT_LL, BC_LT_LN, BC_LE_LL, BC_LE_LN, BC_GT_LL, BC_GT_LN, BC_GE_LL, BC_GE_LN]
  · simp only [vm_step_rel, relNamed, relRhs, h]
    norm_num [BC_EQ_LL, BC_EQ_LN, BC_EQ_LP, BC_NEQ_LL, BC_NEQ_LN, BC_NEQ_LP,
      BC_LT_LL, BC_LT_LN, BC_LE_LL, BC_LE_LN, BC_GT_LL, BC_GT_LN, BC_GE_LL, BC_GE_LN]
  · obtain ⟨hna, hnb⟩ := hnan (by rw [h]; rfl)
    norm_num [relRhs, h, BC_EQ_LL, BC_EQ_LN, BC_EQ_LP, BC_NEQ_LL, BC_NEQ_LN, BC_NEQ_LP,
      BC_LT_LL, BC_LT_LN, BC_LE_LL, BC_LE_LN, BC_GT_LL, BC_GT_LN, BC_GE_LL, BC_GE_LN] at hnb
    simp only [vm_step_rel, relNamed, relRhs, h]
    norm_num [BC_EQ_LL, BC_EQ_LN, BC_EQ_LP, BC_NEQ_LL, BC_NEQ_LN, BC_NEQ_LP,
      BC_LT_LL, BC_LT_LN, BC_LE_LL, BC_LE_LN, BC_GT_LL, BC_GT_LN, BC_GE_LL, BC_GE_LN]
    simp only [List.getD_eq_getElem?_getD] at hna hnb
    exact skip_flip (dblGe_eq_not_lt hna hnb) ip
  · obtain ⟨hna, hnb⟩ := hnan (by rw [h]; rfl)
    norm_num [relRhs, h, BC_EQ_LL, BC_EQ_LN, BC_EQ_LP, BC_NEQ_LL, BC_NEQ_LN, BC_NEQ_LP,
      BC_LT_LL, BC_LT_LN, BC_LE_LL, BC_LE_LN, BC_GT_LL, BC_GT_LN, BC_GE_LL, BC_GE_LN] at hnb
    simp only [vm_step_rel, relNamed, relRhs, h]
    norm_num [BC_EQ_LL, BC_EQ_LN, BC_EQ_LP, BC_NEQ_LL, BC_NEQ_LN, BC_NEQ_LP,
      BC_LT_LL, BC_LT_LN, BC_LE_LL, BC_LE_LN, BC_GT_LL, BC_GT_LN, BC_GE_LL, BC_GE_LN]
    simp only [List.getD_eq_getElem?_getD] at hna hnb
    exact skip_flip (dblGe_eq_not_lt hna hnb) ip
  · obtain ⟨hna, hnb⟩ := hnan (by rw [h]; rfl)
    norm_num [relRhs, h, BC_EQ_LL, BC_EQ_LN, BC_EQ_LP, BC_NEQ_LL, BC_NEQ_LN, BC_NEQ_LP,
      BC_LT_LL, BC_LT_LN, BC_LE_LL, BC_LE_LN, BC_GT_LL, BC_GT_LN, BC_GE_LL, BC_GE_LN] at hnb
    simp only [vm_step_rel, relNamed, relRhs, h]
    norm_num [BC_EQ_LL, BC_EQ_LN, BC_EQ_LP, BC_NEQ_LL, BC_NEQ_LN, BC_NEQ_LP,
      BC_LT_LL, BC_LT_LN, BC_LE_LL, BC_LE_LN, BC_GT_LL, BC_GT_LN, BC_GE_LL, BC_GE_LN]
    simp only [List.getD_eq_getElem?_getD] at hna hnb
    exact skip_flip (dblGt_eq_not_le hna hnb) ip
  · obtain ⟨hna, hnb⟩ := hnan (by rw [h]; rfl)
    norm_num [relRhs, h, BC_EQ_LL, BC_EQ_LN, BC_EQ_LP, BC_NEQ_LL, BC_NEQ_LN, BC_NEQ_LP,
      BC_LT_LL, BC_LT_LN, BC_LE_LL, BC_LE_LN, BC_GT_LL, BC_GT_LN, BC_GE_LL, BC_GE_LN] at hnb
    simp only [vm_step_rel, relNamed, relRhs, h]
    norm_num [BC_EQ_LL, BC_EQ_LN, BC_EQ_LP, BC_NEQ_LL, BC_NEQ_LN, BC_NEQ_LP,
      BC_LT_LL, BC_LT_LN, BC_LE_LL, BC_LE_LN, BC_GT_LL, BC_GT_LN, BC_GE_LL, BC_GE_LN]
    simp only [List.getD_eq_getElem?_getD] at hna hnb
    exact skip_flip (dblGt_eq_not_le hna hnb) ip
  · obtain ⟨hna, hnb⟩ := hnan (by rw [h]; rfl)
    norm_num [relRhs, h, BC_EQ_LL, BC_EQ_LN, BC_EQ_LP, BC_NEQ_LL, BC_NEQ_LN, BC_NEQ_LP,
      BC_LT_LL, BC_LT_LN, BC_LE_LL, BC_LE_LN, BC_GT_LL, BC_GT_LN, BC_GE_LL, BC_GE_LN] at hnb
    simp only [vm_step_rel, relNamed, relRhs, h]
    norm_num [BC_EQ_LL, BC_EQ_LN, BC_EQ_LP, BC_NEQ_LL, BC_NEQ_LN, BC_NEQ_LP,
      BC_LT_LL, BC_LT_LN, BC_LE_LL, BC_LE_LN, BC_GT_LL, BC_GT_LN, BC_GE_LL, BC_GE_LN]
    simp only [List.getD_eq_getElem?_getD] at hna hnb
    exact skip_flip (dblLe_eq_not_gt hna hnb) ip
  · obtain ⟨hna, hnb⟩ := hnan (by rw [h]; rfl)
    norm_num [relRhs, h, BC_EQ_LL, BC_EQ_LN, BC_EQ_LP, BC_NEQ_LL, BC_NEQ_LN, BC_NEQ_LP,
      BC_LT_LL, BC_LT_LN, BC_LE_LL, BC_LE_LN, BC_GT_LL, BC_GT_LN, BC_GE_LL, BC_GE_LN] at hnb
    simp only [vm_step_rel, relNamed, relRhs, h]
    norm_num [BC_EQ_LL, BC_EQ_LN, BC_EQ_LP, BC_NEQ_LL, BC_NEQ_LN, BC_NEQ_LP,
      BC_LT_LL, BC_LT_LN, BC_LE_LL, BC_LE_LN, BC_GT_LL, BC_GT_LN, BC_GE_LL, BC_GE_LN]
    simp only [List.getD_eq_getElem?_getD] at hna hnb
    exact skip_flip (dblLe_eq_not_gt hna hnb) ip
  · obtain ⟨hna, hnb⟩ := hnan (by rw [h]; rfl)
    norm_num [relRhs, h, BC_EQ_LL, BC_EQ_LN, BC_EQ_LP, BC_NEQ_LL, BC_NEQ_LN, BC_NEQ_LP,
      BC_LT_LL, BC_LT_LN, BC_LE_LL, BC_LE_LN, BC_GT_LL, BC_GT_LN, BC_GE_LL, BC_GE_LN] at hnb
    simp only [vm_step_rel, relNamed, relRhs, h]
    norm_num [BC_EQ_LL, BC_EQ_LN, BC_EQ_LP, BC_NEQ_LL, BC_NEQ_LN, BC_NEQ_LP,
      BC_LT_LL, BC_LT_LN, BC_LE_LL, BC_LE_LN, BC_GT_LL, BC_GT_LN, BC_GE_LL, BC_GE_LN]
    simp only [List.getD_eq_getElem?_getD] at hna hnb
    exact skip_flip (dblLt_eq_not_ge hna hnb) ip
  · obtain ⟨hna, hnb⟩ := hnan (by rw [h]; rfl)
    norm_num [relRhs, h, BC_EQ_LL, BC_EQ_LN, BC_EQ_LP, BC_NEQ_LL, BC_NEQ_LN, BC_NEQ_LP,
      BC_LT_LL, BC_LT_LN, BC_LE_LL, BC_LE_LN, BC_GT_LL, BC_GT_LN, BC_GE_LL, BC_GE_LN] at hnb
    simp only [vm_step_rel, relNamed, relRhs, h]
    norm_num [BC_EQ_LL, BC_EQ_LN, BC_EQ_LP, BC_NEQ_LL, BC_NEQ_LN, BC_NEQ_LP,
      BC_LT_LL, BC_LT_LN, BC_LE_LL, BC_LE_LN, BC_GT_LL, BC_GT_LN, BC_GE_LL, BC_GE_LN]
    simp only [List.getD_eq_getElem?_getD] at hna hnb
    exact skip_flip (dblLt_eq_not_ge hna hnb) ip

set_option maxRecDepth 10000 in
/-- Witness for C1: `GE_LN` comparing stack slot 0 (3.0) with constant 0
(7.0): 3 ≥ 7 fails, so the interpreter skips the paired JMP (ip 4 → 6). -/
theorem C1_rel_step_direction_witness :
    vm_step_rel [natToDouble 7] [natToDouble 3] (ins_new2 BC_GE_LN 0 0) 4 =
      some ([natToDouble 3],
        if relNamed (ins_op (ins_new2 BC_GE_LN 0 0))
            (([natToDouble 3]).getD (ins_arg1 (ins_new2 BC_GE_LN 0 0)) 0)
            (relRhs [natToDouble 7] [natToDouble 3] (ins_new2 BC_GE_LN 0 0)) then 5
        else 6) :=
  C1_rel_step_direction (ins_new2 BC_GE_LN 0 0) [natToDouble 7] [natToDouble 3] 4
    (by decide) (by decide)

/-- Counterexample to C1 as stated: for `EQ_LL` on two bitwise-equal Values
the named relation (equality) holds, yet the new instruction pointer is
`ip + 1` (fall through to the paired JMP) and not `ip + 2` (the claimed
skip). -/
theorem C1_counterexample :
    vm_step_rel [] [5, 5] (ins_new2 BC_EQ_LL 0 1) 0 = some ([5, 5], 0 + 1) ∧
    [5, 5].getD (ins_arg1 (ins_new2 BC_EQ_LL 0 1)) 0 =
      [5, 5].getD (ins_arg2 (ins_new2 BC_EQ_LL 0 1)) 0 ∧
    (0 + 1 : Nat) ≠ 0 + 2 := by decide

/-- C3: evaluation of `extract_pkg_name` at the failing inputs.  For `"/"`
the function returns `!((uint64_t) 0)` = 1 (C logical not, where the
all-ones `~0` was intended: `vm_run_file` tests the result against
`~((uint64_t) 0)`, which can never match).  For `".txt"` the empty derived
name is hashed, giving 0.  Neither is the all-ones sentinel `2^64 - 1` the
claim requires.  (`"a.txt"` shows the hash of a one-byte name: with seed 0
the first step is `(0 * prime) ^^^ 97 = 97`, the multiply-then-XOR order of
util.c.) -/
theorem C3_extract_pkg_name_eval :
    extract_pkg_name "/".data = 1 ∧
    extract_pkg_name ".txt".data = 0 ∧
    extract_pkg_name "a.txt".data = 97 ∧
    (1 : Nat) ≠ 2 ^ 64 - 1 ∧ (0 : Nat) ≠ 2 ^ 64 - 1 := by decide

set_option maxRecDepth 10000 in
/-- C4: the lexer's keyword table stops at `"for"`: the exact words `fn`,
`true`, `false` and `nil` lex as `TK_IDENT`, never as `TK_FN` / `TK_TRUE` /
`TK_FALSE` / `TK_NIL` (tokens that lexer.h declares and that parser.c's
`parse_block` and `expr_operand` consume - dead code).  The seven keywords
that are in the table do lex as claimed. -/
theorem C4_keyword_table :
    (lex_first "fn").type = TK_IDENT ∧
    (lex_first "true").type = TK_IDENT ∧
    (lex_first "false").type = TK_IDENT ∧
    (lex_first "nil").type = TK_IDENT ∧
    TK_IDENT ≠ TK_FN ∧ TK_IDENT ≠ TK_TRUE ∧ TK_IDENT ≠ TK_FALSE ∧
    TK_IDENT ≠ TK_NIL ∧
    (lex_first "let").type = TK_LET ∧
    (lex_first "if").type = TK_IF ∧
    (lex_first "else").type = TK_ELSE ∧
    (lex_first "elseif").type = TK_ELSEIF ∧
    (lex_first "loop").type = TK_LOOP ∧
    (lex_first "while").type = TK_WHILE ∧
    (lex_first "for").type = TK_FOR := by decide

/-- C5: folding `==` or `!=` on two primitive literals never "succeeds
without error": the missing `break`s make every primitive-primitive fold
fall through to `default: assert(false)`.  In particular `true == true`
aborts on the assertion instead of folding to the primitive true.  (Holds
in every parser state: the fold never reads it.) -/
theorem C5_fold_prim_asserts : ∀ psr : Parser,
    expr_fold_rel TK_EQ (.prim PRIM_TRUE) (.prim PRIM_TRUE) psr =
      .error .assertFail ∧
    expr_fold_rel TK_NEQ (.prim PRIM_FALSE) (.prim PRIM_NIL) psr =
      .error .assertFail :=
  fun _ => ⟨rfl, rfl⟩

/-- `find_const` finds nothing exactly when the value is not in the pool. -/
theorem find_const_eq_none {l : List Nat} {v : Nat} (h : v ∉ l) :
    find_const l v = none := by
  induction l with
  | nil => rfl
  | cons c rest ih =>
    rw [find_const]
    rw [List.mem_cons, not_or] at h
    rw [if_neg (fun e => h.1 (e.symm)), ih h.2]
    rfl

/-- `find_const` returns the index of the first bitwise-equal entry. -/
theorem find_const_eq_indexOf {l : List Nat} {v : Nat} (h : v ∈ l) :
    find_const l v = some (l.indexOf v) := by
  induction l with
  | nil => cases h
  | cons c rest ih =>
    rw [find_const]
    by_cases hc : c = v
    · rw [if_pos hc, List.indexOf_cons]
      simp [hc]
    · rw [if_neg hc]
      have hv : v ∈ rest := by
        rcases List.mem_cons.mp h with h1 | h1
        · exact absurd h1.symm hc
        · exact h1
      have hcv : (c == v) = false := beq_eq_false_iff_ne.mpr hc
      rw [ih hv, List.indexOf_cons, hcv]
      rfl

/-- One `vm_add_num` call keeps the pool duplicate-free. -/
theorem vm_add_num_nodup_step {cs : List Nat} {n : Nat} (h : cs.Nodup) :
    ((vm_add_num cs n).2).Nodup := by
  rw [vm_add_num]
  by_cases hm : n2v n ∈ cs
  · rw [find_const_eq_indexOf hm]
    exact h
  · rw [find_const_eq_none hm]
    refine h.append (List.nodup_singleton _) ?_
    intro x hx hx1
    rw [List.mem_singleton] at hx1
    subst hx1
    exact hm hx

/-- C7: the constants pool built by any sequence of `vm_add_num` calls from
the empty pool holds no two bitwise-equal Values; adding a bit pattern that
is already present returns the index of the existing entry and leaves the
pool unchanged; adding a new bit pattern appends it and returns its
index. -/
theorem C7_vm_add_num_dedup :
    (∀ nums : List Nat,
      ((nums.foldl (fun cs n => (vm_add_num cs n).2) []).Nodup)) ∧
    (∀ (consts : List Nat) (num : Nat),
      (n2v num ∈ consts →
        vm_add_num consts num = (consts.indexOf (n2v num), consts)) ∧
      (n2v num ∉ consts →
        vm_add_num consts num = (consts.length, consts ++ [n2v num]))) := by
  refine ⟨fun nums => ?_, fun consts num => ⟨fun hm => ?_, fun hm => ?_⟩⟩
  · have gen : ∀ (l : List Nat) (cs : List Nat), cs.Nodup →
        ((l.foldl (fun cs n => (vm_add_num cs n).2) cs).Nodup) := by
      intro l
      induction l with
      | nil => intro cs h; exact h
      | cons n rest ih =>
        intro cs h
        exact ih _ (vm_add_num_nodup_step h)
    exact gen nums [] List.nodup_nil
  · rw [vm_add_num, find_const_eq_indexOf hm]
  · rw [vm_add_num, find_const_eq_none hm]

/-- Witness for C7: in the pool `[3, 5]`, re-adding 3 returns the existing
index 0 without growing the pool. -/
theorem C7_vm_add_num_dedup_witness :
    vm_add_num [3, 5] 3 = (([3, 5] : List Nat).indexOf (n2v 3), [3, 5]) :=
  (C7_vm_add_num_dedup.2 [3, 5] 3).1 (by decide)

/-- C8: recording `[ADD_LN 0 0 0, ADD_LN 0 0 0]` into a fresh trace emits
exactly the IR instructions at indices 1..4 (index 0 is the unused dummy):
`LOAD_STACK 0`, `LOAD_CONST 0`, `ADD (1,2)`, `ADD (3,2)`.  The second
constant read reuses the load at index 2, and the second ADD's left
argument is reference 3 (the first ADD, the current writer of slot 0), not
the original LOAD_STACK at index 1. -/
theorem C8_recorder_dedup :
    (match jit_record jit_trace_new
        [ins_new3 BC_ADD_LN 0 0 0, ins_new3 BC_ADD_LN 0 0 0] with
      | some t => t.ir
      | none => []) =
      [0, ir_new1 IR_LOAD_STACK 0, ir_new1 IR_LOAD_CONST 0,
       ir_new2 IR_ADD 1 2, ir_new2 IR_ADD 3 2] ∧
    ir_op (ir_new1 IR_LOAD_STACK 0) = IR_LOAD_STACK ∧
    ir_arg32 (ir_new1 IR_LOAD_STACK 0) = 0 ∧
    ir_op (ir_new1 IR_LOAD_CONST 0) = IR_LOAD_CONST ∧
    ir_arg32 (ir_new1 IR_LOAD_CONST 0) = 0 ∧
    ir_op (ir_new2 IR_ADD 1 2) = IR_ADD ∧
    ir_arg1 (ir_new2 IR_ADD 1 2) = 1 ∧ ir_arg2 (ir_new2 IR_ADD 1 2) = 2 ∧
    ir_op (ir_new2 IR_ADD 3 2) = IR_ADD ∧
    ir_arg1 (ir_new2 IR_ADD 3 2) = 3 ∧ ir_arg2 (ir_new2 IR_ADD 3 2) = 2 := by
  decide

/-- C10: with the constants pool already at 65,535 entries, discharging any
NUM operand node triggers the compile error "too many constants" - even
when the literal's bit pattern is already interned (the limit check in
`expr_discharge` runs before the dedup lookup of `vm_add_num`). -/
theorem C10_discharge_limit (psr : Parser) (b : Nat)
    (hlen : psr.vm.consts.length = USHRT_MAX)
    (_hmem : n2v b ∈ psr.vm.consts) :
    expr_discharge (.num b) psr =
      .error (.comp "too many constants" psr.lxr.tk.line) := by
  have e : expr_discharge (.num b) psr =
      (if USHRT_MAX ≤ psr.vm.consts.length then
        (psr_trigger_err "too many constants" : P Node)
      else
        (do
          let (idx, consts') := vm_add_num psr.vm.consts b
          p_set { psr with vm := { psr.vm with consts := consts' } }
          pure (.cnst (idx % 2 ^ 16)) : P Node)) psr := rfl
  rw [e, if_pos (le_of_eq hlen.symm)]
  rfl

/-- Witness for C10: a pool of exactly 65,535 entries, all of them the bit
pattern 0, and the already-interned literal 0. -/
theorem C10_discharge_limit_witness :
    expr_discharge (.num 0)
      { vm := { pkgs := [], fns := [], consts := List.replicate USHRT_MAX 0 },
        lxr := lex_new [], pkg := 0, scopes := [], locals := [] } =
      .error (.comp "too many constants" 1) :=
  C10_discharge_limit _ 0 (by rw [List.length_replicate])
    (List.mem_replicate.mpr ⟨by decide, rfl⟩)

/-- Low 8 bits or-ed below a shifted value add up (the bit fields of an
instruction word are disjoint). -/
theorem or_low_high (a b k : Nat) (h : a < 2 ^ k) :
    a ||| b * 2 ^ k = b * 2 ^ k + a := by
  apply Nat.eq_of_testBit_eq
  intro i
  rw [Nat.testBit_lor, Nat.mul_comm b, Nat.testBit_mul_pow_two_add b h i,
    Nat.testBit_mul_pow_two]
  by_cases hi : i < k
  · simp [hi, Nat.not_le_of_lt hi]
  · have ha : a.testBit i = false :=
      Nat.testBit_eq_false_of_lt (lt_of_lt_of_le h (Nat.pow_le_pow_right (by norm_num) (by omega)))
    simp [ha, hi, Nat.le_of_not_lt hi]

/-- `ins_arg24` in div/mod form. -/
theorem ins_arg24_div_mod (x : Nat) : ins_arg24 x = x / 2 ^ 8 % 2 ^ 24 := by
  have hmask : (0xffffff00 : Nat) = (2 ^ 24 - 1) <<< 8 := by
    norm_num [Nat.shiftLeft_eq]
  rw [ins_arg24, hmask]
  apply Nat.eq_of_testBit_eq
  intro i
  conv_rhs => rw [← Nat.shiftRight_eq_div_pow]
  rw [Nat.testBit_mod_two_pow, Nat.testBit_shiftRight, Nat.testBit_shiftRight,
    Nat.testBit_land, Nat.testBit_shiftLeft, Nat.testBit_two_pow_sub_one]
  have e : 8 + i - 8 = i := by omega
  rw [e]
  cases hx : x.testBit (8 + i) <;> by_cases hi : i < 24 <;> simp [hi]

/-- Writing a 24-bit argument and reading it back is the identity. -/
theorem ins_arg24_set_arg24 (w : Nat) {n : Nat} (h : n < 2 ^ 24) :
    ins_arg24 (ins_set_arg24 w n) = n := by
  have h1 : n % 2 ^ 32 = n := Nat.mod_eq_of_lt (by omega)
  have h2 : (0x000000ff : Nat) = 2 ^ 8 - 1 := by norm_num
  have h3 : w % 2 ^ 8 < 2 ^ 8 := Nat.mod_lt _ (by norm_num)
  rw [ins_set_arg24, h1, h2, Nat.and_pow_two_sub_one_eq_mod, Nat.shiftLeft_eq,
    Nat.mod_eq_of_lt (show n * 2 ^ 8 < 2 ^ 32 by omega),
    or_low_high (w % 2 ^ 8) n 8 h3, ins_arg24_div_mod]
  omega

/-- `jmp_set_target` does not change the instruction count. -/
theorem length_jmp_set_target (l : List Nat) (j t : Int) :
    (jmp_set_target l j t).length = l.length := List.length_set l _ _

/-- `jmp_set_target` leaves every other instruction unchanged. -/
theorem getD_jmp_set_target_ne (l : List Nat) (j : Nat) (t : Int) (n : Nat)
    (h : n ≠ j) : (jmp_set_target l (j : Int) t).getD n 0 = l.getD n 0 := by
  rw [jmp_set_target]
  simp only [Int.toNat_natCast, List.getD_eq_getElem?_getD]
  rw [List.getElem?_set_ne (by omega)]

/-- `jmp_follow` of an untouched instruction is unchanged. -/
theorem jmp_follow_set_ne (l : List Nat) (j : Nat) (t : Int) (n : Nat)
    (h : n ≠ j) :
    jmp_follow (jmp_set_target l (j : Int) t) (n : Int) = jmp_follow l (n : Int) := by
  rw [jmp_follow, jmp_follow]
  simp only [Int.toNat_natCast]
  rw [getD_jmp_set_target_ne l j t n h]

/-- With in-range index and target, `jmp_set_target` makes `jmp_follow`
decode exactly the requested target. -/
theorem jmp_follow_set_self (l : List Nat) (j tn : Nat)
    (hlen : j < l.length) (hj : j < 2 ^ 22) (htn : tn < 2 ^ 22) :
    jmp_follow (jmp_set_target l (j : Int) (tn : Int)) (j : Int) = (tn : Int) := by
  have hb : (JMP_BIAS : Int) = 8388608 := by norm_num [JMP_BIAS]
  rw [jmp_follow, jmp_set_target]
  simp only [Int.toNat_natCast]
  rw [if_neg (by omega : ¬((j : Int) < 0))]
  have h0 : (0 : Int) ≤ (tn : Int) - (j : Int) + (JMP_BIAS : Int) - 1 := by omega
  have hmod : ((tn : Int) - (j : Int) + (JMP_BIAS : Int) - 1) % (2 ^ 32 : Int) =
      (tn : Int) - (j : Int) + (JMP_BIAS : Int) - 1 :=
    Int.emod_eq_of_lt h0 (by omega)
  rw [hmod]
  rw [List.getD_eq_getElem?_getD, List.getElem?_set_self (by omega), Option.getD_some]
  rw [ins_arg24_set_arg24 _
    (by omega : ((tn : Int) - (j : Int) + (JMP_BIAS : Int) - 1).toNat < 2 ^ 24)]
  omega

/-- Retargeting an instruction outside a chain keeps it a chain. -/
theorem isJmpChain_set_notMem (l : List Nat) (j : Nat) (t : Int) :
    ∀ is : List Nat, j ∉ is →
      isJmpChain (jmp_set_target l (j : Int) t) is = isJmpChain l is
  | [], _ => rfl
  | [i], h => by
    rw [isJmpChain, isJmpChain, jmp_follow_set_ne l j t i (by simp at h; omega)]
  | i :: k :: rest, h => by
    rw [isJmpChain, isJmpChain, jmp_follow_set_ne l j t i (by simp at h; tauto),
      isJmpChain_set_notMem l j t (k :: rest) (by simp at h ⊢; tauto)]

/-- `setAll` does not change the instruction count. -/
theorem setAll_length (is : List Nat) : ∀ (l : List Nat) (t : Int),
    (setAll l is t).length = l.length := by
  induction is with
  | nil => intro l t; rfl
  | cons i rest ih =>
    intro l t
    rw [setAll, List.foldl_cons]
    have := ih (jmp_set_target l (i : Int) t) t
    rw [setAll] at this
    rw [this, length_jmp_set_target]

/-- `setAll` leaves instructions outside the index set unchanged. -/
theorem setAll_getD_notMem (is : List Nat) : ∀ (l : List Nat) (t : Int) (n : Nat),
    n ∉ is → (setAll l is t).getD n 0 = l.getD n 0 := by
  induction is with
  | nil => intro l t n _; rfl
  | cons i rest ih =>
    intro l t n hn
    rw [setAll, List.foldl_cons]
    have h1 : n ∉ rest := fun h => hn (List.mem_cons_of_mem i h)
    have h2 : n ≠ i := fun h => hn (h ▸ List.mem_cons_self i rest)
    have := ih (jmp_set_target l (i : Int) t) t n h1
    rw [setAll] at this
    rw [this, getD_jmp_set_target_ne l i t n h2]

/-- After `setAll`, every indexed instruction decodes to the target. -/
theorem setAll_follow_mem (is : List Nat) : ∀ (l : List Nat) (tn : Nat) (j : Nat),
    is.Nodup → j ∈ is → (∀ m ∈ is, m < l.length ∧ m < 2 ^ 22) → tn < 2 ^ 22 →
    jmp_follow (setAll l is (tn : Int)) (j : Int) = (tn : Int) := by
  induction is with
  | nil => intro l tn j _ hj _ _; cases hj
  | cons i rest ih =>
    intro l tn j hnd hj hb htn
    rw [setAll, List.foldl_cons]
    have hlr : ∀ m ∈ rest,
        m < (jmp_set_target l (i : Int) (tn : Int)).length ∧ m < 2 ^ 22 := by
      intro m hm
      rw [length_jmp_set_target]
      exact hb m (List.mem_cons_of_mem i hm)
    rcases List.mem_cons.mp hj with rfl | hjr
    · have hni : j ∉ rest := (List.nodup_cons.mp hnd).1
      have hfoll : (setAll (jmp_set_target l (j : Int) (tn : Int)) rest (tn : Int)).getD j 0 =
          (jmp_set_target l (j : Int) (tn : Int)).getD j 0 :=
        setAll_getD_notMem rest _ _ j hni
      rw [show (List.foldl (fun (acc : List Nat) (m : Nat) => jmp_set_target acc (↑m) ((tn : Nat) : Int))
          (jmp_set_target l (j : Int) (tn : Int)) rest) =
          setAll (jmp_set_target l (j : Int) (tn : Int)) rest (tn : Int) from rfl]
      rw [jmp_follow, if_neg (by omega : ¬((j : Int) < 0))]
      rw [Int.toNat_natCast, hfoll]
      have := jmp_follow_set_self l j tn (hb j (List.mem_cons_self j rest)).1
        (hb j (List.mem_cons_self j rest)).2 htn
      rw [jmp_follow, if_neg (by omega : ¬((j : Int) < 0)), Int.toNat_natCast] at this
      exact this
    · rw [show (List.foldl (fun (acc : List Nat) (m : Nat) => jmp_set_target acc (↑m) ((tn : Nat) : Int))
          (jmp_set_target l (i : Int) (tn : Int)) rest) =
          setAll (jmp_set_target l (i : Int) (tn : Int)) rest (tn : Int) from rfl]
      exact ih _ tn j (List.nodup_cons.mp hnd).2 hjr hlr htn

/-- What one `jmp_list_patch` walk actually does on a well-formed chain:
retarget exactly the chain's entries. -/
theorem jmp_list_patch_chain (rest : List Nat) :
    ∀ (fuel : Nat) (l : List Nat) (i : Nat) (tn : Nat),
    (i :: rest).Nodup → isJmpChain l (i :: rest) = true →
    (∀ m ∈ i :: rest, m < l.length ∧ m < 2 ^ 22) → tn < 2 ^ 22 →
    rest.length + 1 ≤ fuel →
    jmp_list_patch fuel l (i : Int) (tn : Int) = setAll l (i :: rest) (tn : Int) := by
  induction rest with
  | nil =>
    intro fuel l i tn _ hch _ _ hf
    obtain ⟨f, rfl⟩ : ∃ f, fuel = f + 1 := ⟨fuel - 1, by omega⟩
    rw [isJmpChain, beq_iff_eq] at hch
    rw [jmp_list_patch, if_neg (by omega : ¬((i : Int) < 0)), if_pos hch]
    rfl
  | cons j rest2 ih =>
    intro fuel l i tn hnd hch hb htn hf
    obtain ⟨f, rfl⟩ : ∃ f, fuel = f + 1 := ⟨fuel - 1, by omega⟩
    rw [isJmpChain, Bool.and_eq_true, beq_iff_eq] at hch
    obtain ⟨hfw, hch2⟩ := hch
    rw [jmp_list_patch, if_neg (by omega : ¬((i : Int) < 0)), if_neg (by rw [hfw]; omega)]
    simp only [hfw]
    have hni : i ∉ j :: rest2 := (List.nodup_cons.mp hnd).1
    have hch2' : isJmpChain (jmp_set_target l (i : Int) (tn : Int)) (j :: rest2) = true := by
      rw [isJmpChain_set_notMem l i (tn : Int) (j :: rest2) hni]
      exact hch2
    have hb' : ∀ m ∈ j :: rest2,
        m < (jmp_set_target l (i : Int) (tn : Int)).length ∧ m < 2 ^ 22 := by
      intro m hm
      rw [length_jmp_set_target]
      exact hb m (List.mem_cons_of_mem i hm)
    rw [ih f (jmp_set_target l (i : Int) (tn : Int)) j tn (List.nodup_cons.mp hnd).2
      hch2' hb' htn (by simpa using Nat.lt_succ_iff.mp (by simpa using hf))]
    rfl

/-- `jmp_follow` only reads the instruction it is pointed at. -/
theorem jmp_follow_eq_of_getD_eq (l l' : List Nat) (n : Nat)
    (h : l.getD n 0 = l'.getD n 0) : jmp_follow l (n : Int) = jmp_follow l' (n : Int) := by
  rw [jmp_follow, jmp_follow]
  simp only [Int.toNat_natCast, h]

/-- C6, amended.  The first `jmp_list_patch` destroys the list linkage: every
entry's 24-bit offset now encodes the first target `t1`.  A second
`jmp_list_patch` on the same head therefore retargets only the HEAD to `t2`,
then mistakes `t1` for the next list element and walks into it: under the
hypotheses that the instruction at `t1` decodes to target `-1` (so the stray
walk stops there) and that `t1` is outside the chain, the final state is:
head decodes to `t2`; every other chain entry still decodes to `t1`; the
instruction at `t1` — outside the original list — is clobbered (it now
decodes to `t2`); everything else is untouched.  The original claim (all
entries end at `t2`, nothing outside the list modified) fails on both
counts whenever the chain has a second element and `t1 ≠ t2`. -/
theorem C6_jmp_list_patch_twice
    (l : List Nat) (i : Nat) (rest : List Nat) (t1 t2 : Nat) (fuel : Nat)
    (hnd : (i :: rest).Nodup)
    (hch : isJmpChain l (i :: rest) = true)
    (hb : ∀ m ∈ i :: rest, m < l.length ∧ m < 2 ^ 22)
    (ht1l : t1 < l.length) (ht1s : t1 < 2 ^ 22) (ht2s : t2 < 2 ^ 22)
    (ht1n : t1 ∉ i :: rest)
    (hstop : jmp_follow l (t1 : Int) = -1)
    (hf : rest.length + 2 ≤ fuel) :
    jmp_follow (jmp_list_patch fuel (jmp_list_patch fuel l (i : Int) (t1 : Int))
      (i : Int) (t2 : Int)) (i : Int) = (t2 : Int) ∧
    (∀ j ∈ rest, jmp_follow (jmp_list_patch fuel (jmp_list_patch fuel l (i : Int) (t1 : Int))
      (i : Int) (t2 : Int)) (j : Int) = (t1 : Int)) ∧
    jmp_follow (jmp_list_patch fuel (jmp_list_patch fuel l (i : Int) (t1 : Int))
      (i : Int) (t2 : Int)) (t1 : Int) = (t2 : Int) ∧
    (∀ n : Nat, n ∉ i :: rest → n ≠ t1 →
      (jmp_list_patch fuel (jmp_list_patch fuel l (i : Int) (t1 : Int))
        (i : Int) (t2 : Int)).getD n 0 = l.getD n 0) := by
  have hl1 : jmp_list_patch fuel l (i : Int) (t1 : Int) = setAll l (i :: rest) (t1 : Int) :=
    jmp_list_patch_chain rest fuel l i t1 hnd hch hb ht1s (by omega)
  have hlen1 : (setAll l (i :: rest) (t1 : Int)).length = l.length := setAll_length _ _ _
  have hii : i ∈ i :: rest := List.mem_cons_self i rest
  have hti : t1 ≠ i := fun e => ht1n (e ▸ hii)
  have hfoll1 : jmp_follow (setAll l (i :: rest) (t1 : Int)) (i : Int) = (t1 : Int) :=
    setAll_follow_mem (i :: rest) l t1 i hnd hii hb ht1s
  obtain ⟨f, rfl⟩ : ∃ f, fuel = f + 1 + 1 := ⟨fuel - 2, by omega⟩
  rw [hl1]
  rw [jmp_list_patch, if_neg (by omega : ¬((i : Int) < 0)),
    if_neg (by rw [hfoll1]; omega), hfoll1]
  have hstop2 : jmp_follow (jmp_set_target (setAll l (i :: rest) (t1 : Int))
      (i : Int) (t2 : Int)) (t1 : Int) = -1 := by
    rw [jmp_follow_set_ne _ i _ t1 hti,
      jmp_follow_eq_of_getD_eq _ l t1 (setAll_getD_notMem (i :: rest) l (t1 : Int) t1 ht1n)]
    exact hstop
  rw [jmp_list_patch, if_neg (by omega : ¬((t1 : Int) < 0)), if_pos hstop2]
  have hlen2a : (jmp_set_target (setAll l (i :: rest) (t1 : Int))
      (i : Int) (t2 : Int)).length = l.length := by
    rw [length_jmp_set_target, hlen1]
  refine ⟨?_, ?_, ?_, ?_⟩
  · rw [jmp_follow_set_ne _ t1 _ i (Ne.symm hti)]
    exact jmp_follow_set_self _ i t2 (by rw [hlen1]; exact (hb i hii).1) (hb i hii).2 ht2s
  · intro j hj
    have hjc : j ∈ i :: rest := List.mem_cons_of_mem i hj
    have hjt : j ≠ t1 := fun e => ht1n (e ▸ hjc)
    have hji : j ≠ i := by
      rintro rfl
      exact (List.nodup_cons.mp hnd).1 hj
    rw [jmp_follow_set_ne _ t1 _ j hjt, jmp_follow_set_ne _ i _ j hji]
    exact setAll_follow_mem (i :: rest) l t1 j hnd hjc hb ht1s
  · exact jmp_follow_set_self _ t1 t2 (by rw [hlen2a]; exact ht1l) ht1s ht2s
  · intro n hnc hnt
    have hni : n ≠ i := fun e => hnc (e ▸ hii)
    rw [getD_jmp_set_target_ne _ t1 _ n hnt, getD_jmp_set_target_ne _ i _ n hni]
    exact setAll_getD_notMem (i :: rest) l (t1 : Int) n hnc

set_option maxRecDepth 4000 in
/-- Witness for C6 (amended): the two-element chain `[1, 0]` in a
four-instruction function, patched to target 2 and then to target 3: the
head (index 1) decodes to 3 and the second element (index 0) still decodes
to 2. -/
theorem C6_jmp_list_patch_twice_witness :
    jmp_follow (jmp_list_patch 5 (jmp_list_patch 5
        [ins_new1 OP_JMP (JMP_BIAS - 2), ins_new1 OP_JMP (JMP_BIAS - 2),
         ins_new1 OP_JMP (JMP_BIAS - 4), ins_new1 OP_RET 0]
        ((1 : Nat) : Int) ((2 : Nat) : Int)) ((1 : Nat) : Int) ((3 : Nat) : Int))
      ((1 : Nat) : Int) = ((3 : Nat) : Int) ∧
    jmp_follow (jmp_list_patch 5 (jmp_list_patch 5
        [ins_new1 OP_JMP (JMP_BIAS - 2), ins_new1 OP_JMP (JMP_BIAS - 2),
         ins_new1 OP_JMP (JMP_BIAS - 4), ins_new1 OP_RET 0]
        ((1 : Nat) : Int) ((2 : Nat) : Int)) ((1 : Nat) : Int) ((3 : Nat) : Int))
      ((0 : Nat) : Int) = ((2 : Nat) : Int) := by
  have H := C6_jmp_list_patch_twice
    [ins_new1 OP_JMP (JMP_BIAS - 2), ins_new1 OP_JMP (JMP_BIAS - 2),
     ins_new1 OP_JMP (JMP_BIAS - 4), ins_new1 OP_RET 0]
    1 [0] 2 3 5 (by decide) (by decide) (by decide) (by decide) (by decide)
    (by decide) (by decide) (by decide) (by decide)
  exact ⟨H.1, H.2.1 0 (by decide)⟩

set_option maxRecDepth 4000 in
/-- Counterexample to C6 as stated: in the same four-instruction function,
after patching the chain `[1, 0]` to 2 and then to 3, the list member at
index 0 decodes to 2 — not to the second target 3 — and the instruction at
index 2, which never belonged to the list, has been modified. -/
theorem C6_counterexample :
    jmp_follow (jmp_list_patch 5 (jmp_list_patch 5
        [ins_new1 OP_JMP (JMP_BIAS - 2), ins_new1 OP_JMP (JMP_BIAS - 2),
         ins_new1 OP_JMP (JMP_BIAS - 4), ins_new1 OP_RET 0]
        (1 : Int) (2 : Int)) (1 : Int) (3 : Int)) (0 : Int) = (2 : Int) ∧
    ((2 : Int) ≠ (3 : Int)) ∧
    (jmp_list_patch 5 (jmp_list_patch 5
        [ins_new1 OP_JMP (JMP_BIAS - 2), ins_new1 OP_JMP (JMP_BIAS - 2),
         ins_new1 OP_JMP (JMP_BIAS - 4), ins_new1 OP_RET 0]
        (1 : Int) (2 : Int)) (1 : Int) (3 : Int)).getD 2 0 ≠
      ([ins_new1 OP_JMP (JMP_BIAS - 2), ins_new1 OP_JMP (JMP_BIAS - 2),
        ins_new1 OP_JMP (JMP_BIAS - 4), ins_new1 OP_RET 0] : List Nat).getD 2 0 := by
  decide

/-- Writing a result register and reading it back is the identity. -/
theorem ir_reg_set_reg (w r : Nat) (h : r < 2 ^ 16) :
    ir_reg (ir_set_reg w r) = r := by
  have h1 : r % 2 ^ 16 = r := Nat.mod_eq_of_lt h
  have h2 : (0x0000ffffffffffff : Nat) = 2 ^ 48 - 1 := by norm_num
  rw [ir_reg, ir_set_reg, h1, h2, Nat.and_pow_two_sub_one_eq_mod, Nat.shiftLeft_eq,
    or_low_high (w % 2 ^ 48) r 48 (Nat.mod_lt _ (by norm_num)),
    Nat.shiftRight_eq_div_pow]
  omega

/-- The allocation scan writes only the instructions it visits; it never
grows or shrinks the IR. -/
theorem asm_alloc_go_frame (lr : Nat → Nat) (count : Nat) :
    ∀ (n : Nat) (st : List Nat × (Nat → Nat)) (out : List Nat × (Nat → Nat)),
      asm_alloc_go lr count n st = some out → n < count →
      (∀ p : Nat, p < count - n → out.1.getD p 0 = st.1.getD p 0) ∧
      out.1.length = st.1.length := by
  intro n
  induction n with
  | zero =>
    intro st out h _
    rw [asm_alloc_go] at h
    cases h
    exact ⟨fun p _ => rfl, rfl⟩
  | succ m ih =>
    intro st out h hn
    rw [asm_alloc_go] at h
    rcases hs : asm_alloc_step lr (count - (m + 1)) st with _ | st'
    · rw [hs] at h; cases h
    · rw [hs] at h
      simp only at h
      obtain ⟨hfr, hlen⟩ := ih st' out h (by omega)
      rcases st with ⟨ir, rE⟩
      rw [asm_alloc_step] at hs
      rcases hf : asm_find_free (asm_free_regs rE (count - (m + 1))) HY_ARCH_NUM_REGS with _ | reg
      · rw [hf] at hs; cases hs
      · rw [hf] at hs
        simp only at hs
        cases hs
        constructor
        · intro p hp
          rw [hfr p (by omega)]
          simp only
          simp only [List.getD_eq_getElem?_getD]
          rw [List.getElem?_set_ne (by omega)]
        · rw [hlen]
          simp only [List.length_set]

/-- The register-search loop returns a free register below the register
count. -/
theorem asm_find_free_spec (regEnd : Nat → Nat) :
    ∀ (n : Nat) (reg : Nat), asm_find_free regEnd n = some reg →
      regEnd reg = IR_NONE ∧ reg < HY_ARCH_NUM_REGS := by
  intro n
  induction n with
  | zero => intro reg h; cases h
  | succ m ih =>
    intro reg h
    rw [asm_find_free] at h
    by_cases hc : regEnd (HY_ARCH_NUM_REGS - (m + 1)) = IR_NONE
    · rw [if_pos hc] at h
      cases h
      exact ⟨hc, by rw [HY_ARCH_NUM_REGS]; omega⟩
    · rw [if_neg hc] at h
      exact ih reg h

/-- A register marked busy until instruction `e` is not assigned to any
instruction processed strictly before `e`. -/
theorem asm_alloc_go_busy (lr : Nat → Nat) (count : Nat) :
    ∀ (n : Nat) (st : List Nat × (Nat → Nat)) (out : List Nat × (Nat → Nat)),
      asm_alloc_go lr count n st = some out → n < count → st.1.length = count →
      ∀ (r e : Nat), st.2 r = e → e ≠ IR_NONE →
        ∀ q : Nat, count - n ≤ q → q < count → q < e →
          ir_reg (out.1.getD q 0) ≠ r := by
  intro n
  induction n with
  | zero => intro st out h _ _ r e _ _ q hq1 hq2 _; omega
  | succ m ih =>
    intro st out h hn hlen r e hre he q hq1 hq2 hqe
    rw [asm_alloc_go] at h
    rcases st with ⟨ir, rE⟩
    have hlen' : ir.length = count := hlen
    rcases hs : asm_alloc_step lr (count - (m + 1)) (ir, rE) with _ | st'
    · rw [hs] at h; cases h
    · rw [hs] at h
      simp only at h
      rw [asm_alloc_step] at hs
      rcases hf : asm_find_free (asm_free_regs rE (count - (m + 1))) HY_ARCH_NUM_REGS with _ | reg
      · rw [hf] at hs; cases hs
      · rw [hf] at hs
        simp only at hs
        cases hs
        have hins_lt : count - (m + 1) < e := by omega
        have hre' : rE r = e := hre
        have hnotfree : ¬(r < HY_ARCH_NUM_REGS ∧ rE r = count - (m + 1)) := by
          rintro ⟨_, h2⟩
          rw [hre'] at h2
          omega
        have hrE1 : asm_free_regs rE (count - (m + 1)) r = e := by
          show (if r < HY_ARCH_NUM_REGS ∧ rE r = count - (m + 1) then IR_NONE else rE r) = e
          rw [if_neg hnotfree]
          exact hre'
        have hreg := asm_find_free_spec _ HY_ARCH_NUM_REGS reg hf
        have hrne : reg ≠ r := by
          intro hcontra
          rw [hcontra, hrE1] at hreg
          exact he hreg.1
        rcases Nat.eq_or_lt_of_le hq1 with hqeq | hqlt
        · have hq : q = count - (m + 1) := by omega
          rw [hq]
          obtain ⟨hfr, _⟩ := asm_alloc_go_frame lr count m _ out h (by omega)
          rw [hfr (count - (m + 1)) (by omega)]
          show ir_reg ((ir.set (count - (m + 1))
            (ir_set_reg (ir.getD (count - (m + 1)) 0) reg)).getD (count - (m + 1)) 0) ≠ r
          rw [List.getD_eq_getElem?_getD, List.getElem?_set_self (by omega), Option.getD_some]
          rw [ir_reg_set_reg _ reg (lt_trans hreg.2 (by rw [HY_ARCH_NUM_REGS]; norm_num))]
          exact hrne
        · refine ih _ out h (by omega) (by simp [List.length_set, hlen']) r e ?_ he q (by omega) hq2 hqe
          show (if r = reg then lr (count - (m + 1)) else asm_free_regs rE (count - (m + 1)) r) = e
          rw [if_neg (fun hcontra => hrne hcontra.symm)]
          exact hrE1

/-- Two instructions processed by one allocation scan, where the earlier
one's last use lies strictly beyond the later one, get different
registers. -/
theorem asm_alloc_go_distinct (lr : Nat → Nat) (count : Nat) :
    ∀ (n : Nat) (st : List Nat × (Nat → Nat)) (out : List Nat × (Nat → Nat)),
      asm_alloc_go lr count n st = some out → n < count → st.1.length = count →
      ∀ i j : Nat, count - n ≤ i → i < j → j < count → j < lr i →
        ir_reg (out.1.getD i 0) ≠ ir_reg (out.1.getD j 0) := by
  intro n
  induction n with
  | zero => intro st out h _ _ i j hi hij hj _; omega
  | succ m ih =>
    intro st out h hn hlen i j hi hij hj hlive
    rw [asm_alloc_go] at h
    rcases st with ⟨ir, rE⟩
    have hlen' : ir.length = count := hlen
    rcases hs : asm_alloc_step lr (count - (m + 1)) (ir, rE) with _ | st'
    · rw [hs] at h; cases h
    · rw [hs] at h
      simp only at h
      rw [asm_alloc_step] at hs
      rcases hf : asm_find_free (asm_free_regs rE (count - (m + 1))) HY_ARCH_NUM_REGS with _ | reg
      · rw [hf] at hs; cases hs
      · rw [hf] at hs
        simp only at hs
        cases hs
        rcases Nat.eq_or_lt_of_le hi with hieq | hilt
        · have hieq' : i = count - (m + 1) := by omega
          rw [hieq']
          obtain ⟨hfr, _⟩ := asm_alloc_go_frame lr count m _ out h (by omega)
          rw [hfr (count - (m + 1)) (by omega)]
          show ir_reg ((ir.set (count - (m + 1))
              (ir_set_reg (ir.getD (count - (m + 1)) 0) reg)).getD (count - (m + 1)) 0) ≠
            ir_reg (out.1.getD j 0)
          rw [List.getD_eq_getElem?_getD, List.getElem?_set_self (by omega), Option.getD_some]
          have hreg := asm_find_free_spec _ HY_ARCH_NUM_REGS reg hf
          rw [ir_reg_set_reg _ reg (lt_trans hreg.2 (by rw [HY_ARCH_NUM_REGS]; norm_num))]
          have hbusy := asm_alloc_go_busy lr count m _ out h (by omega)
            (by simp [List.length_set, hlen']) reg (lr (count - (m + 1)))
            (by
              show (if reg = reg then lr (count - (m + 1))
                else asm_free_regs rE (count - (m + 1)) reg) = lr (count - (m + 1))
              rw [if_pos rfl])
            (by rw [← hieq', IR_NONE]; omega)
            j (by omega) hj (by rw [← hieq']; omega)
          exact fun e => hbusy e.symm
        · exact ih _ out h (by omega) (by simp [List.length_set, hlen']) i j (by omega) hij hj hlive

/-- C9, amended.  After register allocation succeeds on a trace (allocation
returns `none` exactly on the unimplemented spill assertion), any two IR
instructions `1 ≤ i < j` whose live ranges overlap in the STRICT sense that
`i`'s recorded last use lies strictly beyond `j` are assigned different
physical registers.  The original claim draws the overlap boundary at
"last use of `i` ≥ `j`": that is refuted by the allocator itself, which
frees a register in the very cycle its live range ends, so an instruction
`j` that is the LAST use of `i` (last use of `i` = `j`) may legitimately
reuse `i`'s register. -/
theorem C9_alloc_reg_distinct (t : Trace) (i j : Nat) (hi : 1 ≤ i) (hij : i < j)
    (hj : j < t.ir.length) (hlive : j < asm_calculate_live_ranges t.ir i) :
    (asm_allocate_registers t).elim True (fun u =>
      ir_reg (u.ir.getD i 0) ≠ ir_reg (u.ir.getD j 0)) := by
  rw [asm_allocate_registers]
  rcases hgo : asm_alloc_go (asm_calculate_live_ranges t.ir) t.ir.length
      (t.ir.length - 1) (t.ir, fun _ => IR_NONE) with _ | out
  · simp only [Option.elim]
  · rcases out with ⟨ir', rE'⟩
    simp only [Option.elim]
    exact asm_alloc_go_distinct (asm_calculate_live_ranges t.ir) t.ir.length
      (t.ir.length - 1) (t.ir, fun _ => IR_NONE) (ir', rE') hgo (by omega) rfl
      i j (by omega) hij hj hlive

/-- Witness for C9 (amended): in the four-instruction trace of the
`NumReuse` test, instructions 1 (`LOAD_STACK 0`, last use 3) and 2
(`LOAD_CONST 0`, last use 4) overlap strictly at instruction 2, and indeed
receive different registers (xmm0 and xmm1). -/
theorem C9_alloc_reg_distinct_witness :
    (asm_allocate_registers
      ⟨[0, ir_new1 IR_LOAD_STACK 0, ir_new1 IR_LOAD_CONST 0,
        ir_new2 IR_ADD 1 2, ir_new2 IR_ADD 3 2],
       fun _ => IR_NONE, fun _ => IR_NONE⟩).elim True (fun u =>
      ir_reg (u.ir.getD 1 0) ≠ ir_reg (u.ir.getD 2 0)) :=
  C9_alloc_reg_distinct
    ⟨[0, ir_new1 IR_LOAD_STACK 0, ir_new1 IR_LOAD_CONST 0,
      ir_new2 IR_ADD 1 2, ir_new2 IR_ADD 3 2],
     fun _ => IR_NONE, fun _ => IR_NONE⟩
    1 2 (by decide) (by decide) (by decide) (by decide)

set_option maxRecDepth 4000 in
/-- Counterexample to C9 as stated: in the same trace, instruction 1's
recorded last use is 3, so instructions 1 and 3 "overlap" in the claim's
non-strict sense (last use of 1 ≥ 3) — yet the allocator assigns both of
them register 0: it frees instruction 1's register in the very cycle its
live range ends and hands it to instruction 3. -/
theorem C9_counterexample :
    asm_calculate_live_ranges
      [0, ir_new1 IR_LOAD_STACK 0, ir_new1 IR_LOAD_CONST 0,
       ir_new2 IR_ADD 1 2, ir_new2 IR_ADD 3 2] 1 = 3 ∧
    (1 : Nat) < 3 ∧
    (asm_allocate_registers
      ⟨[0, ir_new1 IR_LOAD_STACK 0, ir_new1 IR_LOAD_CONST 0,
        ir_new2 IR_ADD 1 2, ir_new2 IR_ADD 3 2],
       fun _ => IR_NONE, fun _ => IR_NONE⟩).map (fun u =>
      (ir_reg (u.ir.getD 1 0), ir_reg (u.ir.getD 3 0))) = some (0, 0) := by
  decide

set_option maxRecDepth 100000 in
set_option maxHeartbeats 4000000 in
/-- One `parse_while` call on the state after `let a = 0`: condition
`a < 100` compiled and inverted to `GE_LN`, body `a += 1`, backwards
`OP_JMP` to the condition, false case patched past the loop. -/
theorem parse_while_eval (da : DArith) :
    parse_while da 9 psrC2_let = .ok ((), psrC2_w) := by
  rw [show (9 : Nat) = 8 + 1 from rfl, parse_while]
  simp only [P.bind_ok (show p_lex_next psrC2_let = .ok ((), psrC2_w1) from rfl)]
  simp only [P.bind_ok (show cur_ins_count psrC2_w1 = .ok (1, psrC2_w1) from rfl)]
  simp only [P.bind_ok (show parse_expr da 8 psrC2_w1 = .ok (.jmp 2 (-1), psrC2_w2) from rfl)]
  simp only [P.bind_ok (show expr_to_jmp (.jmp 2 (-1)) psrC2_w2 = .ok (.jmp 2 (-1), psrC2_w2) from rfl)]
  simp only [P.bind_ok (show jmp_ensure_true_falls_through (.jmp 2 (-1)) psrC2_w2 =
    .ok (.jmp (-1) 2, psrC2_w4) from rfl)]
  simp only [P.bind_ok (show cur_ins_count psrC2_w4 = .ok (3, psrC2_w4) from rfl)]
  simp only [P.bind_ok (show m_jmp_list_patch (-1) ((3 : Nat) : Int) psrC2_w4 = .ok ((), psrC2_w4) from rfl)]
  simp only [P.bind_ok (show p_lex_expect '\x7b'.toNat psrC2_w4 = .ok ((), psrC2_w4) from rfl)]
  simp only [P.bind_ok (show p_lex_next psrC2_w4 = .ok ((), psrC2_w6) from rfl)]
  simp only [P.bind_ok (show parse_block da 8 psrC2_w6 = .ok ((), psrC2_w7) from rfl)]
  simp only [P.bind_ok (show p_lex_expect '\x7d'.toNat psrC2_w7 = .ok ((), psrC2_w7) from rfl)]
  simp only [P.bind_ok (show p_lex_next psrC2_w7 = .ok ((), psrC2_w8) from rfl)]
  simp only [P.bind_ok (show fn_emit (ins_new1 OP_JMP 0) psrC2_w8 = .ok (4, psrC2_w9) from rfl)]
  simp only [P.bind_ok (show m_jmp_set_target ((4 : Nat) : Int) ((1 : Nat) : Int) psrC2_w9 = .ok ((), psrC2_w10) from rfl)]
  simp only [P.bind_ok (show cur_ins_count psrC2_w10 = .ok (5, psrC2_w10) from rfl)]
  exact (show m_jmp_list_patch 2 ((5 : Nat) : Int) psrC2_w10 = .ok ((), psrC2_w) from rfl)

set_option maxRecDepth 100000 in
set_option maxHeartbeats 4000000 in
/-- The statement loop after `let a = 0`: the `while` statement, then end
of input. -/
theorem parse_block_loop10_eval (da : DArith) :
    parse_block_loop da 10 psrC2_let = .ok ((), psrC2_w) := by
  rw [show (10 : Nat) = 9 + 1 from rfl, parse_block_loop]
  simp only [P.bind_ok (show p_get psrC2_let = .ok (psrC2_let, psrC2_let) from rfl)]
  rw [if_neg (show ¬(psrC2_let.lxr.tk.type = TK_LET) from by decide),
    if_neg (show ¬(psrC2_let.lxr.tk.type = TK_IDENT) from by decide),
    if_neg (show ¬(psrC2_let.lxr.tk.type = '('.toNat) from by decide),
    if_neg (show ¬(psrC2_let.lxr.tk.type = TK_IF) from by decide),
    if_neg (show ¬(psrC2_let.lxr.tk.type = TK_LOOP) from by decide),
    if_pos (show psrC2_let.lxr.tk.type = TK_WHILE from by decide)]
  simp only [P.bind_ok (parse_while_eval da)]
  exact (show parse_block_loop da 9 psrC2_w = .ok ((), psrC2_w) from rfl)

set_option maxRecDepth 100000 in
set_option maxHeartbeats 4000000 in
/-- The whole top-level statement loop: `let`, then the `while`. -/
theorem parse_block_loop11_eval (da : DArith) :
    parse_block_loop da 11 psrC2_2 = .ok ((), psrC2_w) := by
  rw [show (11 : Nat) = 10 + 1 from rfl, parse_block_loop]
  simp only [P.bind_ok (show p_get psrC2_2 = .ok (psrC2_2, psrC2_2) from rfl)]
  rw [if_pos (show psrC2_2.lxr.tk.type = TK_LET from by decide)]
  simp only [P.bind_ok (show parse_let da 10 psrC2_2 = .ok ((), psrC2_let) from rfl)]
  exact parse_block_loop10_eval da

set_option maxRecDepth 100000 in
set_option maxHeartbeats 4000000 in
/-- The top-level block: the statements, then the block's locals and stack
slots are discarded. -/
theorem parse_block12_eval (da : DArith) :
    parse_block da 12 psrC2_2 = .ok ((), psrC2_b2) := by
  rw [show (12 : Nat) = 11 + 1 from rfl, parse_block]
  simp only [P.bind_ok (show p_get psrC2_2 = .ok (psrC2_2, psrC2_2) from rfl)]
  simp only [P.bind_ok (show cur_scope psrC2_2 =
    .ok ({ fn := 0, first_local := 0, next_slot := 0 }, psrC2_2) from rfl)]
  simp only [P.bind_ok (parse_block_loop11_eval da)]
  rfl

set_option maxRecDepth 100000 in
set_option maxHeartbeats 4000000 in
/-- `parse_code` on the example source: first token, main-function scope,
the block, the terminal `RET`. -/
theorem parse_code_eval (da : DArith) :
    parse_code da 12 psrC2_0 = .ok ((), psrC2_fin) := by
  simp only [parse_code]
  simp only [P.bind_ok (show p_lex_next psrC2_0 = .ok ((), psrC2_1) from rfl)]
  simp only [P.bind_ok (show p_get psrC2_1 = .ok (psrC2_1, psrC2_1) from rfl)]
  simp only [P.bind_ok (show p_set { psrC2_1 with scopes :=
    [{ fn := (psrC2_1.vm.pkgs.getD psrC2_1.pkg { name := 0, main_fn := 0 }).main_fn,
       first_local := 0, next_slot := 0 }] } psrC2_1 = .ok ((), psrC2_2) from rfl)]
  simp only [P.bind_ok (parse_block12_eval da)]
  rfl

set_option maxRecDepth 100000 in
set_option maxHeartbeats 4000000 in
/-- C2.  Compiling `let a = 0  while a < 100 { a += 1 }` into a fresh
package's main function (any model of double arithmetic; it is never
consulted) produces `[SET_N 0 0, GE_LN 0 1, JMP +3, ADD_LN 0 0 2,
JMP -3, RET]` with constants `[0, 100.0, 1.0]`.  The backwards jump that
closes the while loop is an ordinary `OP_JMP` (this compiler's `Opcode`
enum has no LOOP opcode): the claimed `LOOP` instruction does not exist
here, which is the divergence — everything else matches the claim.  The
last two conjuncts decode the jumps: the backwards jump at index 4 targets
index 1 (the condition), and the condition's false-case jump at index 2
targets index 5 (after the loop). -/
theorem C2_while_emits_plain_jmp (da : DArith) :
    parse da 12 (vm_new_pkg vm_new 7).2 0 srcC2 =
      .ok { pkgs := [{ name := 7, main_fn := 0 }],
            fns := [{ pkg := 0, ins := [ins_new2 OP_SET_N 0 0, ins_new2 OP_GE_LN 0 1,
                ins_new1 OP_JMP (JMP_BIAS + 2), ins_new3 OP_ADD_LN 0 0 2,
                ins_new1 OP_JMP (JMP_BIAS - 4), ins_new3 OP_RET 0 0 0] }],
            consts := [n2v 0, n2v (natToDouble 100), n2v (natToDouble 1)] } ∧
    ins_op (ins_new1 OP_JMP (JMP_BIAS - 4)) = OP_JMP ∧
    jmp_follow [ins_new2 OP_SET_N 0 0, ins_new2 OP_GE_LN 0 1,
      ins_new1 OP_JMP (JMP_BIAS + 2), ins_new3 OP_ADD_LN 0 0 2,
      ins_new1 OP_JMP (JMP_BIAS - 4), ins_new3 OP_RET 0 0 0] 4 = 1 ∧
    jmp_follow [ins_new2 OP_SET_N 0 0, ins_new2 OP_GE_LN 0 1,
      ins_new1 OP_JMP (JMP_BIAS + 2), ins_new3 OP_ADD_LN 0 0 2,
      ins_new1 OP_JMP (JMP_BIAS - 4), ins_new3 OP_RET 0 0 0] 2 = 5 := by
  refine ⟨?_, by decide, by decide, by decide⟩
  rw [parse]
  rw [show ({ vm := (vm_new_pkg vm_new 7).2, lxr := lex_new srcC2, pkg := 0,
              scopes := [], locals := [] } : Parser) = psrC2_0 from rfl]
  rw [parse_code_eval da]
  rfl

end Hydrogen
